import Mathlib

/-!
Verification of the `babel-unique-id` package (deterministic fingerprint
derivation for Babel plugins).

The development shallowly embeds the repository's three source units:

* `src/lib/hash.js`  — SHA-256 based short token rendering (`shortHash`,
  `sha256Hash`).  The SHA-256 compression function itself (Node's
  `crypto.createHash('sha256')`) is implemented here over `Nat` bytes,
  together with standard base64 encoding (Node `Buffer.toString('base64')`).
* `src/lib/package.js` — `findPackageRoot` / `readPackageJson`, the ancestor
  directory walk.  Filesystem reads (`fs.readFileSync`) and `JSON.parse` are
  external collaborators and are passed in as oracle functions.
* `index.js` — `createId` (the `conformOptions` variant) together with
  `conformOptions`, `getIdStrFromPath`, `validatePackage`.

JavaScript dynamic values are modelled by `JsVal`; Babel's per-file `state`
object by `State`/`BabelFile` with a symbol-keyed slot store.  Node `path`
functions (`dirname`, `join`, `relative`, POSIX flavour, `path.sep = '/'`) are
modelled for normalized POSIX paths.  A small object-heap model is used to
state the frame property of `conformOptions` (the caller's options object is
copied, not mutated).
-/

/-! ### JavaScript values -/

/-- A JavaScript runtime value, restricted to the shapes that flow through
this library: `undefined`, `null`, booleans, (integer) numbers, strings,
symbols (identified by a numeric id) and functions (opaque). -/
inductive JsVal where
  | undef
  | nullV
  | boolV (b : Bool)
  | numV (n : Int)
  | strV (s : String)
  | symV (id : Nat)
  | funcV
  deriving DecidableEq, Repr

/-- JavaScript truthiness. -/
def truthy : JsVal → Bool
  | .undef => false
  | .nullV => false
  | .boolV b => b
  | .numV n => n != 0
  | .strV s => s != ""
  | .symV _ => true
  | .funcV => true

/-- JavaScript explicit `String(...)` coercion of the primitive values
(`String(sym)` renders a symbol as `Symbol()`; the source text of the
opaque `funcV` is abstracted as `function`).  Template-literal
interpolation is stricter — it uses `ToString`, which throws for symbols —
and is modelled separately by `jsTmpl` below; on the executed paths of
this development `jsToString` itself is only applied to values that are
not symbols (memoized identity strings and validated fields). -/
def jsToString : JsVal → String
  | .undef => "undefined"
  | .nullV => "null"
  | .boolV b => if b then "true" else "false"
  | .numV n => toString n
  | .strV s => s
  | .symV _ => "Symbol()"
  | .funcV => "function"

/-- ECMAScript `ToString` as performed by template-literal interpolation
(the error messages interpolate the offending value).  A
symbol value makes evaluating the template literal itself throw a
`TypeError` instead of producing a string. -/
def jsTmpl : JsVal → Except String String
  | .symV _ => .error "TypeError: Cannot convert a Symbol value to a string"
  | v => .ok (jsToString v)

/-- `a || b` (JavaScript logical or, value-returning). -/
def jsOr (a b : JsVal) : JsVal := if truthy a then a else b

/-- `is-it-type` `isString`. -/
def isString : JsVal → Bool
  | .strV _ => true
  | _ => false

/-- `is-it-type` `isFullString` (non-empty string). -/
def isFullString : JsVal → Bool
  | .strV s => s != ""
  | _ => false

/-- `is-it-type` `isBoolean`. -/
def isBoolean : JsVal → Bool
  | .boolV _ => true
  | _ => false

/-- `is-it-type` `isPositiveInteger` (an integer `> 0`; non-numbers and
non-integral numbers are rejected, the latter being unrepresentable in this
model). -/
def isPositiveInteger : JsVal → Bool
  | .numV n => 0 < n
  | _ => false

/-- `is-it-type` `isSymbol`. -/
def isSymbol : JsVal → Bool
  | .symV _ => true
  | _ => false

/-! ### SHA-256 (`crypto.createHash('sha256')`) over `Nat` bytes -/

/-- Truncation to 32 bits. -/
def u32 (n : Nat) : Nat := n % 4294967296

/-- 32-bit right rotation by `n` bits (`0 < n < 32`). -/
def rotr (n x : Nat) : Nat := x / 2 ^ n + x % 2 ^ n * 2 ^ (32 - n)

def sigma0 (x : Nat) : Nat := rotr 7 x ^^^ rotr 18 x ^^^ x / 2 ^ 3
def sigma1 (x : Nat) : Nat := rotr 17 x ^^^ rotr 19 x ^^^ x / 2 ^ 10
def bigSigma0 (x : Nat) : Nat := rotr 2 x ^^^ rotr 13 x ^^^ rotr 22 x
def bigSigma1 (x : Nat) : Nat := rotr 6 x ^^^ rotr 11 x ^^^ rotr 25 x
def chFn (x y z : Nat) : Nat := (x &&& y) ^^^ ((x ^^^ 4294967295) &&& z)
def majFn (x y z : Nat) : Nat := (x &&& y) ^^^ (x &&& z) ^^^ (y &&& z)

/-- The eight 32-bit working variables of SHA-256. -/
structure Hs where
  a : Nat
  b : Nat
  c : Nat
  d : Nat
  e : Nat
  f : Nat
  g : Nat
  h : Nat
  deriving DecidableEq, Repr

def sha256Init : Hs :=
  ⟨1779033703, 3144134277, 1013904242, 2773480762,
   1359893119, 2600822924, 528734635, 1541459225⟩

/-- The 64 SHA-256 round constants (fractional parts of the cube roots of
the first 64 primes), written in decimal. -/
def sha256K : List Nat :=
  [1116352408, 1899447441, 3049323471, 3921009573,
   961987163, 1508970993, 2453635748, 2870763221,
   3624381080, 310598401, 607225278, 1426881987,
   1925078388, 2162078206, 2614888103, 3248222580,
   3835390401, 4022224774, 264347078, 604807628,
   770255983, 1249150122, 1555081692, 1996064986,
   2554220882, 2821834349, 2952996808, 3210313671,
   3336571891, 3584528711, 113926993, 338241895,
   666307205, 773529912, 1294757372, 1396182291,
   1695183700, 1986661051, 2177026350, 2456956037,
   2730485921, 2820302411, 3259730800, 3345764771,
   3516065817, 3600352804, 4094571909, 275423344,
   430227734, 506948616, 659060556, 883997877,
   958139571, 1322822218, 1537002063, 1747873779,
   1955562222, 2024104815, 2227730452, 2361852424,
   2428436474, 2756734187, 3204031479, 3329325298]

/-- Pack big-endian bytes into 32-bit words, four at a time. -/
def bytesToWords : List Nat → List Nat
  | b1 :: b2 :: b3 :: b4 :: rest =>
      (b1 * 16777216 + b2 * 65536 + b3 * 256 + b4) :: bytesToWords rest
  | _ => []

/-- Extend the 16-word message schedule by `k` further words. -/
def extendSchedule : Nat → List Nat → List Nat
  | 0, ws => ws
  | k + 1, ws =>
      let i := ws.length
      let w := u32 (ws.getD (i - 16) 0 + sigma0 (ws.getD (i - 15) 0) +
                    ws.getD (i - 7) 0 + sigma1 (ws.getD (i - 2) 0))
      extendSchedule k (ws ++ [w])

/-- One SHA-256 round. -/
def sha256Round (s : Hs) (kw : Nat × Nat) : Hs :=
  let t1 := u32 (s.h + bigSigma1 s.e + chFn s.e s.f s.g + kw.1 + kw.2)
  let t2 := u32 (bigSigma0 s.a + majFn s.a s.b s.c)
  ⟨u32 (t1 + t2), s.a, s.b, s.c, u32 (s.d + t1), s.e, s.f, s.g⟩

/-- Compress one 64-byte block into the running state. -/
def sha256Block (s : Hs) (block : List Nat) : Hs :=
  let ws := extendSchedule 48 (bytesToWords block)
  let t := (sha256K.zip ws).foldl sha256Round s
  ⟨u32 (s.a + t.a), u32 (s.b + t.b), u32 (s.c + t.c), u32 (s.d + t.d),
   u32 (s.e + t.e), u32 (s.f + t.f), u32 (s.g + t.g), u32 (s.h + t.h)⟩

/-- 64-bit big-endian length encoding. -/
def be8 (n : Nat) : List Nat :=
  [n / 2 ^ 56 % 256, n / 2 ^ 48 % 256, n / 2 ^ 40 % 256, n / 2 ^ 32 % 256,
   n / 2 ^ 24 % 256, n / 2 ^ 16 % 256, n / 2 ^ 8 % 256, n % 256]

/-- SHA-256 padding: `0x80`, zeros to 56 mod 64, 64-bit bit length. -/
def padMessage (msg : List Nat) : List Nat :=
  let len := msg.length
  let zeros := (64 - (len + 9) % 64) % 64
  msg ++ 128 :: List.replicate zeros 0 ++ be8 (len * 8)

/-- Split into 64-byte blocks (fuelled; the fuel is always sufficient). -/
def chunks64 : Nat → List Nat → List (List Nat)
  | 0, _ => []
  | _ + 1, [] => []
  | fuel + 1, l => l.take 64 :: chunks64 fuel (l.drop 64)

/-- Render one 32-bit word as four big-endian bytes. -/
def wordBytes (w : Nat) : List Nat :=
  [w / 2 ^ 24 % 256, w / 2 ^ 16 % 256, w / 2 ^ 8 % 256, w % 256]

/-- SHA-256 digest (32 bytes) of a byte sequence. -/
def sha256 (msg : List Nat) : List Nat :=
  let padded := padMessage msg
  let final := (chunks64 padded.length padded).foldl sha256Block sha256Init
  wordBytes final.a ++ wordBytes final.b ++ wordBytes final.c ++
  wordBytes final.d ++ wordBytes final.e ++ wordBytes final.f ++
  wordBytes final.g ++ wordBytes final.h

/-- UTF-8 encoding of one character. -/
def utf8Char (c : Char) : List Nat :=
  let n := c.toNat
  if n < 128 then [n]
  else if n < 2048 then [192 + n / 64, 128 + n % 64]
  else if n < 65536 then [224 + n / 4096, 128 + n / 64 % 64, 128 + n % 64]
  else [240 + n / 262144, 128 + n / 4096 % 64, 128 + n / 64 % 64, 128 + n % 64]

/-- UTF-8 bytes of a string (what Node hashes for a string input). -/
def utf8Bytes (s : String) : List Nat := (s.data.map utf8Char).flatten

/-! ### base64 (`Buffer.toString('base64')`) -/

def b64Alphabet : List Char :=
  "ABCDEFGHIJKLMNOPQRSTUVWXYZabcdefghijklmnopqrstuvwxyz0123456789+/".data

def b64Char (i : Nat) : Char := b64Alphabet.getD i 'A'

/-- Standard base64 rendering (with `=` padding) of a byte sequence. -/
def base64Chars : List Nat → List Char
  | [] => []
  | [b1] => [b64Char (b1 / 4), b64Char (b1 % 4 * 16), '=', '=']
  | [b1, b2] =>
      [b64Char (b1 / 4), b64Char (b1 % 4 * 16 + b2 / 16), b64Char (b2 % 16 * 4), '=']
  | b1 :: b2 :: b3 :: rest =>
      let n := b1 * 65536 + b2 * 256 + b3
      b64Char (n / 262144) :: b64Char (n / 4096 % 64) :: b64Char (n / 64 % 64) ::
        b64Char (n % 64) :: base64Chars rest

def base64Encode (bytes : List Nat) : String := ⟨base64Chars bytes⟩

/-! ### `src/lib/hash.js` -/

/-- `sha256Hash(str)` (no `binary` flag): base64 of the SHA-256 digest. -/
def sha256Hash (str : String) : String := base64Encode (sha256 (utf8Bytes str))

/-- `buffer[0] &= 127` — clear the top bit of the first byte. -/
def maskHead : List Nat → List Nat
  | [] => []
  | b :: rest => (b &&& 127) :: rest

/-- `.replace(/\+/g, '_').replace(/\//g, '$')` on a single character. -/
def replaceB64 (c : Char) : Char :=
  if c = '+' then '_' else if c = '/' then '$' else c

/-- `.replace(/=+$/, '')` — strip trailing `=` characters. -/
def stripEq (cs : List Char) : List Char :=
  (cs.reverse.dropWhile (· == '=')).reverse

/-- `shortHash(str, len)` from `src/lib/hash.js`: SHA-256 the string, clear
the top bit of the first byte, base64-encode, truncate to `len`, strip `=`
padding, substitute `+ -> _` and `/ -> $`. -/
def shortHash (str : String) (len : Nat) : String :=
  let buffer := maskHead (sha256 (utf8Bytes str))
  ⟨(stripEq ((base64Chars buffer).take len)).map replaceB64⟩

/-! ### POSIX path model (Node `path` module, `path.sep = '/'`)

The repository runs Node's POSIX `path` functions on the file/root paths.
These are external collaborators; they are modelled below.  `dirname`
transcribes Node's `path.posix.dirname` character scan; `joinPkg` and
`pathRelative` model `path.join(dir, 'package.json')` and
`path.relative(from, to)` for normalized paths (the only shapes produced by
Babel and by the `dirname` walk). -/

/-- Node `path.posix.dirname` on a non-empty path `c0 :: tail`.  The scan
from the end skips trailing slashes, then cuts at the next slash; no slash
found gives `"/"` for rooted input and `"."` otherwise; the historic
`end === 1` special case for rooted input gives `"//"`. -/
def dirnameCore (c0 : Char) (tail : List Char) : String :=
  match (tail.reverse.dropWhile (· == '/')).dropWhile (· != '/') with
  | [] => if c0 = '/' then "/" else "."
  | _ :: r => if c0 = '/' ∧ r = [] then "//" else ⟨c0 :: r.reverse⟩

/-- Node `path.posix.dirname`. -/
def dirname (s : String) : String :=
  match s.data with
  | [] => "."
  | c0 :: tail => dirnameCore c0 tail

/-- Whether the last character of `s` is `c` (kernel-reducible model of
the `slice(-1)` / `endsWith` checks). -/
def lastCharIs (s : String) (c : Char) : Bool :=
  match s.data.getLast? with
  | some c2 => c2 == c
  | none => false

/-- Drop the final character (`slice(0, -1)`). -/
def strDropLast (s : String) : String := ⟨s.data.dropLast⟩

/-- Node `path.join(path, 'package.json')` for normalized `path`. -/
def joinPkg (path : String) : String :=
  if path = "" then "package.json"
  else if lastCharIs path '/' then path ++ "package.json"
  else path ++ "/package.json"

/-- Split a POSIX path into its non-empty components. -/
def splitCompsAux : List Char → List Char → List String
  | [], acc => if acc.isEmpty then [] else [⟨acc.reverse⟩]
  | c :: cs, acc =>
    if c = '/' then
      if acc.isEmpty then splitCompsAux cs [] else (⟨acc.reverse⟩ : String) :: splitCompsAux cs []
    else splitCompsAux cs (c :: acc)

def splitComps (s : String) : List String := splitCompsAux s.data []

/-- Remove the longest common prefix of two component lists. -/
def dropCommon : List String → List String → List String × List String
  | a :: as, b :: bs => if a = b then dropCommon as bs else (a :: as, b :: bs)
  | as, bs => (as, bs)

/-- Node `path.posix.relative(from, to)` for normalized absolute paths:
drop the common ancestry, then climb with `..` and descend into `to`. -/
def pathRelative (f t : String) : String :=
  let p := dropCommon (splitComps f) (splitComps t)
  String.intercalate "/" (p.1.map (fun _ => "..") ++ p.2)

lemma dropWhile_head_false (p : Char → Bool) :
    ∀ (l : List Char) (x : Char) (r : List Char), l.dropWhile p = x :: r → p x = false := by
  intro l
  induction l with
  | nil => intro x r h; simp [List.dropWhile] at h
  | cons c cs ih =>
    intro x r h
    by_cases hc : p c
    · rw [List.dropWhile_cons_of_pos hc] at h; exact ih x r h
    · rw [List.dropWhile_cons_of_neg hc] at h
      cases h; simpa using hc

/-- Structure of `dirnameCore`: it returns `"."`, `"/"`, or something of
length at most `tail.length` (hence shorter than `c0 :: tail`). -/
lemma dirnameCore_shape (c0 : Char) (tail : List Char) :
    dirnameCore c0 tail = "." ∨ dirnameCore c0 tail = "/" ∨
      (dirnameCore c0 tail).length ≤ tail.length := by
  rcases hdw : (tail.reverse.dropWhile (· == '/')).dropWhile (· != '/') with _ | ⟨x, r⟩
  · by_cases hc : c0 = '/'
    · right; left; simp [dirnameCore, hdw, hc]
    · left; simp [dirnameCore, hdw, hc]
  · have hlen2 : (x :: r).length ≤ (tail.reverse.dropWhile (· == '/')).length := by
      rw [← hdw]; exact (List.dropWhile_sublist _).length_le
    have hlen1 : (tail.reverse.dropWhile (· == '/')).length ≤ tail.length := by
      have := (List.dropWhile_sublist (l := tail.reverse) (· == '/')).length_le
      simpa using this
    by_cases hsp : c0 = '/' ∧ r = []
    · -- `"//"` case: the list the final `dropWhile` ran on begins with a
      -- non-slash yet the result begins with a slash, so at least one
      -- element was dropped and `tail` holds at least two characters
      right; right
      obtain ⟨hc0, hr⟩ := hsp
      subst hr
      rcases hl2 : tail.reverse.dropWhile (· == '/') with _ | ⟨y, l2⟩
      · rw [hl2] at hdw; simp [List.dropWhile] at hdw
      · have hy : (y == '/') = false :=
          dropWhile_head_false (· == '/') tail.reverse y l2 hl2
        have hne : l2 ≠ [] := by
          intro he
          rw [hl2, he] at hdw
          have hyt : (y != '/') = true := by simpa using hy
          simp [List.dropWhile, hyt] at hdw
        have h2 : 1 ≤ l2.length := by
          cases l2 with
          | nil => exact absurd rfl hne
          | cons _ _ => simp
        rw [hl2] at hlen1
        have hlen1a : l2.length + 1 ≤ tail.length := by simpa using hlen1
        have hgoal : dirnameCore c0 tail = "//" := by
          simp [dirnameCore, hdw, hc0]
        rw [hgoal]
        have h22 : ("//" : String).length = 2 := rfl
        omega
    · right; right
      have hlen2a : r.length + 1 ≤ (tail.reverse.dropWhile (· == '/')).length := by
        simpa using hlen2
      have hgoal : dirnameCore c0 tail = ⟨c0 :: r.reverse⟩ := by
        simp [dirnameCore, hdw, hsp]
      rw [hgoal]
      have hfin : (String.mk (c0 :: r.reverse)).length = r.length + 1 := by
        simp [String.length]
      omega

/-- Structure of `dirname`: it returns `"."`, `"/"`, or something strictly
shorter than its input. -/
lemma dirname_shape (s : String) :
    dirname s = "." ∨ dirname s = "/" ∨ (dirname s).length < s.length := by
  rcases s with ⟨cs⟩
  cases cs with
  | nil => left; rfl
  | cons c0 tail =>
    have hd : dirname ⟨c0 :: tail⟩ = dirnameCore c0 tail := rfl
    rw [hd]
    rcases dirnameCore_shape c0 tail with h | h | h
    · left; exact h
    · right; left; exact h
    · right; right
      have : (String.mk (c0 :: tail)).length = tail.length + 1 := by
        simp [String.length]
      omega

lemma dirname_dot : dirname "." = "." := by decide

lemma dirname_slash : dirname "/" = "/" := by decide

/-- Walk rank used for termination of the ancestor enumeration. -/
def rank (s : String) : Nat := if dirname s = s then 0 else s.length + 2

lemma rank_lt (s : String) (h : dirname s ≠ s) : rank (dirname s) < rank s := by
  simp only [rank, if_neg h]
  by_cases hfix : dirname (dirname s) = dirname s
  · rw [if_pos hfix]; omega
  · rw [if_neg hfix]
    rcases dirname_shape s with hd | hd | hd
    · exact absurd (by rw [hd]; exact dirname_dot) hfix
    · exact absurd (by rw [hd]; exact dirname_slash) hfix
    · omega

/-- The directories visited by `findPackageRoot`'s loop, in order: repeated
`dirname` applications, stopping (exclusively) at the fixpoint where
`dirname path === path`. -/
def ancestors (s : String) : List String :=
  if h : dirname s = s then [] else dirname s :: ancestors (dirname s)
termination_by rank s
decreasing_by exact rank_lt s h

/-! ### `src/lib/package.js` — `findPackageRoot` / `readPackageJson` -/

/-- Outcome of `fs.readFileSync(path, 'utf8')`: `ENOENT` failure, any other
failure (the thrown error, carried as a message), or the file text. -/
inductive FsRead where
  | notFound
  | ioError (msg : String)
  | content (s : String)
  deriving DecidableEq, Repr

/-- The two fields destructured from a parsed `package.json` object. -/
structure PkgFields where
  name : JsVal
  version : JsVal
  deriving DecidableEq, Repr

/-- The `{name, version, path, pkgPath}` record returned by
`readPackageJson`. -/
structure PkgProps where
  name : JsVal
  version : JsVal
  path : String
  pkgPath : String
  deriving DecidableEq, Repr

/-- Message for a `JSON.parse` throw (modelled; the real text depends on the
malformed input). -/
def jsonParseErrMsg : String := "SyntaxError: Unexpected token in JSON"

/-- `readPackageJson(path)` from `src/lib/package.js`.  `rf` is the
filesystem oracle (`fs.readFileSync`), `pr` the `JSON.parse` oracle
(`none` = parse throw).  `ENOENT` and a missing/falsy `name` yield
`.ok none`; other read errors and parse errors propagate. -/
def readPackageJson (rf : String → FsRead) (pr : String → Option PkgFields)
    (path : String) : Except String (Option PkgProps) :=
  let pkgPath := joinPkg path
  match rf pkgPath with
  | .notFound => .ok none
  | .ioError msg => .error msg
  | .content str =>
    match pr str with
    | none => .error jsonParseErrMsg
    | some pkg =>
      if truthy pkg.name then .ok (some ⟨pkg.name, pkg.version, path, pkgPath⟩)
      else .ok none

/-- The body of `findPackageRoot`'s `while (true)` loop, run over the list
of ancestor directories. -/
def walkList (rf : String → FsRead) (pr : String → Option PkgFields) :
    List String → Except String (Option PkgProps)
  | [] => .ok none
  | d :: rest =>
    match readPackageJson rf pr d with
    | .error e => .error e
    | .ok (some props) => .ok (some props)
    | .ok none => walkList rf pr rest

/-- `findPackageRoot(path)` from `src/lib/package.js`: walk the ancestor
directories of `path` until a `package.json` with a truthy `name` is found;
reaching the filesystem root (`dirname path === path`) gives `undefined`. -/
def findPackageRoot (rf : String → FsRead) (pr : String → Option PkgFields)
    (path : String) : Except String (Option PkgProps) :=
  walkList rf pr (ancestors path)

/-! ### `index.js` — options conformance -/

/-- The recognized option fields of the options object passed to `createId`
(unknown extra fields are never read and are omitted). -/
structure Options where
  rootPath : JsVal := .undef
  isPackage : JsVal := .undef
  packageName : JsVal := .undef
  packageVersion : JsVal := .undef
  idLength : JsVal := .undef
  pluginName : JsVal := .undef
  counterKey : JsVal := .undef
  deriving DecidableEq, Repr

/-- The options object after `conformOptions`: validated and defaulted.
`errPre` is the message prefix applied by the `invariant` closure
(`"<pluginName>: "` or empty); `counterKey` is the numeric id of the counter
symbol. -/
structure Conformed where
  rootPath : Option String
  isPackage : Bool
  packageName : Option String
  packageVersion : Option String
  idLength : Nat
  errPre : String
  counterKey : Nat
  deriving DecidableEq, Repr

def DEFAULT_ID_LEN : Nat := 8

/-- Numeric ids standing for the module's private symbols
`ID_STRING` / `ID_COUNTER` from `createSymbols('babel-unique-id', ...)`.
JavaScript symbols are globally unique; user-supplied `counterKey` symbols
are therefore distinct from these two — theorems that depend on that
uniqueness carry it as an explicit hypothesis on the ids. -/
def ID_STRING : Nat := 0

def ID_COUNTER : Nat := 1

/-- The `{...options}` copy with the `for (const key in options)` loop that
replaces `null` field values by `undefined`, per field. -/
def nn (v : JsVal) : JsVal := if v = .nullV then .undef else v

def asOptStr : JsVal → Option String
  | .strV s => some s
  | _ => none

def jsOfOptStr : Option String → JsVal
  | none => .undef
  | some s => .strV s

/-- The message prefix applied by the `invariant` closure built in
`conformOptions`: `"<pluginName>: "` when a plugin name is configured,
empty otherwise. -/
def errPreOf (opts : Options) : String :=
  match nn opts.pluginName with
  | .strV s => s ++ ": "
  | _ => ""

/-- `conformOptions(options)` from `index.js`: copy the options, strip
`null`s, validate `pluginName` and the string options, trim a trailing `/`
from `rootPath`, default `isPackage`/`idLength`/`counterKey`, and enforce
the `packageName`/`packageVersion` pairing.  Failed `tinyInvariant` calls
surface as `.error` with the (plugin-name-prefixed) message.  Every
executed `invariant(condition, message)` call evaluates its `message`
template literal eagerly — before `invariant` runs — so a symbol value at
an interpolated site throws the `ToString` `TypeError` (`jsTmpl`) instead
of reaching the check; in particular a supplied symbol `counterKey`
*throws* while building the (mislabeled) message, even though it would
satisfy the `isSymbol` check. -/
def conformOptions (opts : Options) : Except String Conformed :=
  let pluginName := nn opts.pluginName
  match jsTmpl pluginName with
  | .error e => .error e
  | .ok pluginNameS =>
  if !(pluginName == .undef || isFullString pluginName) then
    .error ("options.pluginName must be non-empty string if provided - got " ++ pluginNameS)
  else
  let pre := errPreOf opts
  let rootPath := nn opts.rootPath
  match jsTmpl rootPath with
  | .error e => .error e
  | .ok rootPathS =>
  if !(rootPath == .undef || isFullString rootPath) then
    .error (pre ++ "options.rootPath must be a non-empty string if provided - got " ++
      rootPathS)
  else
  let packageName := nn opts.packageName
  match jsTmpl packageName with
  | .error e => .error e
  | .ok packageNameS =>
  if !(packageName == .undef || isFullString packageName) then
    .error (pre ++ "options.packageName must be a non-empty string if provided - got " ++
      packageNameS)
  else
  let packageVersion := nn opts.packageVersion
  match jsTmpl packageVersion with
  | .error e => .error e
  | .ok packageVersionS =>
  if !(packageVersion == .undef || isFullString packageVersion) then
    .error (pre ++ "options.packageVersion must be a non-empty string if provided - got " ++
      packageVersionS)
  else
  -- strip trailing path separator (POSIX `/`) from rootPath
  let rootPath := match rootPath with
    | .strV s => JsVal.strV (if s != "/" && lastCharIs s '/' then strDropLast s else s)
    | v => v
  let isPackageStep : Except String Bool :=
    match nn opts.isPackage with
    | .undef => .ok false
    | .boolV b => .ok b
    | v =>
      match jsTmpl v with
      | .error e => .error e
      | .ok s => .error (pre ++ "options.isPackage must be boolean if provided - got " ++ s)
  match isPackageStep with
  | .error e => .error e
  | .ok isPackage =>
    if truthy packageName != truthy packageVersion then
      .error (pre ++
        "`packageName` and `packageVersion` options must either be both provided or both omitted")
    else
    let idLenStep : Except String Nat :=
      match nn opts.idLength with
      | .undef => .ok DEFAULT_ID_LEN
      | v =>
        match jsTmpl v with
        | .error e => .error e
        | .ok s =>
          if isPositiveInteger v then
            .ok (match v with | .numV n => n.toNat | _ => 0)
          else
            .error (pre ++ "options.idLength must be a positive integer if provided - got " ++ s)
    match idLenStep with
    | .error e => .error e
    | .ok idLength =>
      let ckStep : Except String Nat :=
        match nn opts.counterKey with
        | .undef => .ok ID_COUNTER
        | v =>
          -- `invariant(isSymbol(counterKey), msg)`: `msg` interpolates
          -- `counterKey` and is evaluated before the call, so a symbol —
          -- the only value the check would accept — throws the `ToString`
          -- `TypeError` first, and any other supplied value fails the
          -- check with the message, whose text names the wrong option
          -- (`pluginName` instead of `counterKey`); transcribed verbatim
          match jsTmpl v with
          | .error e => .error e
          | .ok s =>
            .error (pre ++ "options.pluginName must be a Symbol if provided - got " ++ s)
      match ckStep with
      | .error e => .error e
      | .ok counterKey =>
        .ok ⟨asOptStr rootPath, isPackage, asOptStr packageName,
             asOptStr packageVersion, idLength, pre, counterKey⟩

/-! ### `index.js` — identity string from path -/

/-- Message for the `TypeError` thrown when `validatePackage` destructures
`undefined` (i.e. `readPackageJson(rootPath)` found no named package). -/
def destructureErrMsg : String :=
  "TypeError: Cannot destructure property 'name' of 'packageProps' as it is undefined."

/-- `validatePackage(packageProps, invariant)` from `index.js`. -/
def validatePackage (props : PkgProps) (errPre : String) : Except String Unit :=
  if !truthy props.version then
    .error (errPre ++ props.pkgPath ++ " does not contain a version field")
  else if !isString props.name then
    .error (errPre ++ props.pkgPath ++ " contains non-string name field")
  else if !isString props.version then
    .error (errPre ++ props.pkgPath ++ " contains non-string version field")
  else .ok ()

/-- The tail of `getIdStrFromPath`: relative path plus the
`package:`/`path:` rendering.  On POSIX `path.sep` is `/`, so the
backslash-to-slash conversion branch is inactive. -/
def buildIdStr (pN pV : JsVal) (rootPath path : String) : String :=
  let relativePath := pathRelative rootPath path
  if truthy pN then
    "package:" ++ jsToString pN ++ "@" ++ jsToString pV ++ ":" ++ relativePath
  else "path:" ++ relativePath

/-- `getIdStrFromPath(path, options, invariant)` from `index.js`.  Note the
source's `rootPath` branch assigns `packageVersion = packageProps.name`
(transcribed verbatim), while the `findPackageRoot` branch assigns
`packageProps.version`. -/
def getIdStrFromPath (rf : String → FsRead) (pr : String → Option PkgFields)
    (path : String) (conf : Conformed) : Except String (Option String) :=
  let pN := jsOfOptStr conf.packageName
  let pV := jsOfOptStr conf.packageVersion
  match conf.rootPath with
  | some rootPath =>
    -- root path provided by the user
    if conf.isPackage && !truthy pN then
      match readPackageJson rf pr rootPath with
      | .error e => .error e
      | .ok none => .error destructureErrMsg
      | .ok (some props) =>
        match validatePackage props conf.errPre with
        | .error e => .error e
        | .ok _ => .ok (some (buildIdStr props.name props.name rootPath path))
    else .ok (some (buildIdStr pN pV rootPath path))
  | none =>
    -- root path not provided: search for package.json
    match findPackageRoot rf pr path with
    | .error e => .error e
    | .ok none => .ok none
    | .ok (some props) =>
      let rootPath := props.path
      if conf.isPackage && !truthy pN then
        match validatePackage props conf.errPre with
        | .error e => .error e
        | .ok _ => .ok (some (buildIdStr props.name props.version rootPath path))
      else .ok (some (buildIdStr pN pV rootPath path))

/-! ### `index.js` — `createId` -/

/-- Babel's per-file object as used by the source: `file.opts.filename`
(a string or `undefined` — modelled as `Option String`), `file.code`, and
the symbol-keyed `file.get`/`file.set` store. -/
structure BabelFile where
  filename : Option String
  code : String
  slots : List (Nat × JsVal)
  deriving DecidableEq, Repr

/-- `file.get(key)` (`undefined` when the key was never set). -/
def getSlot (f : BabelFile) (k : Nat) : JsVal :=
  match f.slots.lookup k with
  | none => .undef
  | some v => v

/-- `file.set(key, value)`. -/
def setSlot (f : BabelFile) (k : Nat) (v : JsVal) : BabelFile :=
  { f with slots := (k, v) :: f.slots }

/-- The Babel `state` object (`createId` reads `state.file`). -/
structure State where
  file : BabelFile
  deriving DecidableEq, Repr

/-- `file.get(counterKey) || 0` coerced to the number the source adds `1`
to (the slot only ever holds numbers). -/
def counterOf (f : BabelFile) (k : Nat) : Int :=
  match jsOr (getSlot f k) (.numV 0) with
  | .numV n => n
  | _ => 0

/-- The counter-and-hash tail of `createId` (shared by the memoized and the
freshly-computed branches): read the counter, store `count + 1`, append
`:<count>`, and short-hash. -/
def finishToken (conf : Conformed) (idStr : String) (file : BabelFile) :
    Except String (String × State) :=
  let count := counterOf file conf.counterKey
  let file := setSlot file conf.counterKey (.numV (count + 1))
  .ok (shortHash (idStr ++ ":" ++ toString count) conf.idLength, ⟨file⟩)

/-- The body of `createId` after options conformance: fetch or compute the
memoized identity string, then append the counter and hash. -/
def createIdBody (rf : String → FsRead) (pr : String → Option PkgFields)
    (conf : Conformed) (state : State) : Except String (String × State) :=
  let file := state.file
  let cached := getSlot file ID_STRING
  if truthy cached then
    finishToken conf (jsToString cached) file
  else
    let pathRes : Except String (Option String) :=
      match file.filename with
      | some p => if p = "" then .ok none else getIdStrFromPath rf pr p conf
      | none => .ok none
    match pathRes with
    | .error e => .error e
    | .ok fromPath =>
      let idStr := match fromPath with
        | some s => s
        | none => "code:" ++ sha256Hash file.code
      finishToken conf idStr (setSlot file ID_STRING (.strV idStr))

/-- `createId(state, options)` — `module.exports` of `index.js`
(the `conformOptions` variant).  `rf`/`pr` are the filesystem and
`JSON.parse` collaborators threaded down to `readPackageJson`. -/
def createId (rf : String → FsRead) (pr : String → Option PkgFields)
    (state : State) (options : Options) : Except String (String × State) :=
  match conformOptions options with
  | .error e => .error e
  | .ok conf => createIdBody rf pr conf state

/-- `n` successive `createId` calls on one session, collecting the returned
tokens in order. -/
def runSeq (rf : String → FsRead) (pr : String → Option PkgFields)
    (options : Options) : Nat → State → Except String (List String × State)
  | 0, st => .ok ([], st)
  | n + 1, st =>
    match createId rf pr st options with
    | .error e => .error e
    | .ok (tok, st') =>
      match runSeq rf pr options n st' with
      | .error e => .error e
      | .ok (toks, st'') => .ok (tok :: toks, st'')

/-! ### Object-heap model of the options copy

`conformOptions` mutates an object.  To state that the *caller's* options
object is untouched, the conformance pass is replayed here on a small heap
of JavaScript objects (field lists addressed by reference), with the same
reads, checks and writes as the source: the `{...options}` spread allocates
a fresh object, and every subsequent write targets that copy. -/

/-- A JS object: its (string-keyed) fields, latest write first. -/
abbrev JsObj := List (String × JsVal)

/-- A heap of JS objects; `next` is the next fresh reference. -/
structure Heap where
  store : Nat → JsObj
  next : Nat

def heapGet (h : Heap) (r : Nat) : JsObj := h.store r

def objGet (o : JsObj) (k : String) : JsVal :=
  match o.lookup k with
  | none => .undef
  | some v => v

/-- `obj[k] = v` on the object at reference `r`. -/
def heapWrite (h : Heap) (r : Nat) (k : String) (v : JsVal) : Heap :=
  ⟨fun i => if i = r then (k, v) :: h.store i else h.store i, h.next⟩

/-- Allocate a fresh object (reference `h.next`). -/
def heapAlloc (h : Heap) (o : JsObj) : Heap :=
  ⟨fun i => if i = h.next then o else h.store i, h.next + 1⟩

/-- The `for (const key in options) if (options[key] === null) ...` loop,
performed by per-key writes on the object at `r`. -/
def stripNullsH (h : Heap) (r : Nat) : Heap :=
  (heapGet h r).foldl
    (fun hAcc kv =>
      if objGet (heapGet hAcc r) kv.1 = .nullV then heapWrite hAcc r kv.1 .undef
      else hAcc)
    h

/-- The `counterKey` step of the heap replay of `conformOptions`.  As in
the source, the invariant's message template literal is evaluated before
the check, so a supplied symbol throws the `ToString` `TypeError` and any
other supplied value fails the check with the mislabeled message; either
way no write happens. -/
def conformCkH (h : Heap) (r1 : Nat) (pre : String) : Heap × Except String Nat :=
  match objGet (heapGet h r1) "counterKey" with
  | .undef => (heapWrite h r1 "counterKey" (.symV ID_COUNTER), .ok r1)
  | v =>
    match jsTmpl v with
    | .error e => (h, .error e)
    | .ok s =>
      (h, .error (pre ++ "options.pluginName must be a Symbol if provided - got " ++ s))

/-- The `idLength` step of the heap replay of `conformOptions`. -/
def conformIdLenH (h : Heap) (r1 : Nat) (pre : String) : Heap × Except String Nat :=
  match objGet (heapGet h r1) "idLength" with
  | .undef => conformCkH (heapWrite h r1 "idLength" (.numV (Int.ofNat DEFAULT_ID_LEN))) r1 pre
  | v =>
    match jsTmpl v with
    | .error e => (h, .error e)
    | .ok s =>
      if isPositiveInteger v then conformCkH h r1 pre
      else (h, .error (pre ++ "options.idLength must be a positive integer if provided - got " ++
        s))

/-- The pairing-invariant step of the heap replay of `conformOptions`. -/
def conformPairH (h : Heap) (r1 : Nat) (pre : String) : Heap × Except String Nat :=
  if truthy (objGet (heapGet h r1) "packageName") !=
     truthy (objGet (heapGet h r1) "packageVersion") then
    (h, .error (pre ++
      "`packageName` and `packageVersion` options must either be both provided or both omitted"))
  else conformIdLenH h r1 pre

/-- The `isPackage` step of the heap replay of `conformOptions`. -/
def conformIsPkgH (h : Heap) (r1 : Nat) (pre : String) : Heap × Except String Nat :=
  match objGet (heapGet h r1) "isPackage" with
  | .undef => conformPairH (heapWrite h r1 "isPackage" (.boolV false)) r1 pre
  | .boolV _ => conformPairH h r1 pre
  | v =>
    match jsTmpl v with
    | .error e => (h, .error e)
    | .ok s => (h, .error (pre ++ "options.isPackage must be boolean if provided - got " ++ s))

/-- `conformOptions` replayed on the heap: `r` is the caller's options
object.  Returns the heap (mutations survive a throw, as in JS) and either
the thrown message or the reference of the conformed copy.  The
`{...options}` spread allocates the copy at `h0.next`; every write below
targets that copy. -/
def conformOptionsH (h0 : Heap) (r : Nat) : Heap × Except String Nat :=
  let r1 := h0.next
  let h := heapAlloc h0 (heapGet h0 r)        -- options = {...options}
  let h := stripNullsH h r1                   -- null -> undefined, field by field
  let pluginName := objGet (heapGet h r1) "pluginName"
  match jsTmpl pluginName with
  | .error e => (h, .error e)
  | .ok pluginNameS =>
  if !(pluginName == .undef || isFullString pluginName) then
    (h, .error ("options.pluginName must be non-empty string if provided - got " ++
      pluginNameS))
  else
  let pre := match pluginName with
    | .strV s => s ++ ": "
    | _ => ""
  let h := heapWrite h r1 "invariant" .funcV  -- options.invariant = invariant
  let rootPath := objGet (heapGet h r1) "rootPath"
  match jsTmpl rootPath with
  | .error e => (h, .error e)
  | .ok rootPathS =>
  if !(rootPath == .undef || isFullString rootPath) then
    (h, .error (pre ++ "options.rootPath must be a non-empty string if provided - got " ++
      rootPathS))
  else
  let packageName := objGet (heapGet h r1) "packageName"
  match jsTmpl packageName with
  | .error e => (h, .error e)
  | .ok packageNameS =>
  if !(packageName == .undef || isFullString packageName) then
    (h, .error (pre ++ "options.packageName must be a non-empty string if provided - got " ++
      packageNameS))
  else
  let packageVersion := objGet (heapGet h r1) "packageVersion"
  match jsTmpl packageVersion with
  | .error e => (h, .error e)
  | .ok packageVersionS =>
  if !(packageVersion == .undef || isFullString packageVersion) then
    (h, .error (pre ++ "options.packageVersion must be a non-empty string if provided - got " ++
      packageVersionS))
  else
  let h := match rootPath with
    | .strV s =>
      if s != "/" && lastCharIs s '/' then heapWrite h r1 "rootPath" (.strV (strDropLast s))
      else h
    | _ => h
  conformIsPkgH h r1 pre

/-- Read the conformed options out of the heap copy (for running the rest
of `createId` after `conformOptionsH`). -/
def readConformed (h : Heap) (r1 : Nat) : Conformed :=
  let o := heapGet h r1
  { rootPath := asOptStr (objGet o "rootPath")
    isPackage := match objGet o "isPackage" with | .boolV b => b | _ => false
    packageName := asOptStr (objGet o "packageName")
    packageVersion := asOptStr (objGet o "packageVersion")
    idLength := match objGet o "idLength" with | .numV n => n.toNat | _ => 0
    errPre := match objGet o "pluginName" with | .strV s => s ++ ": " | _ => ""
    counterKey := match objGet o "counterKey" with | .symV i => i | _ => 0 }

/-- `createId` with the options object held on the heap: conform (possibly
throwing), then run the body on the conformed copy. -/
def createIdH (rf : String → FsRead) (pr : String → Option PkgFields)
    (h : Heap) (r : Nat) (state : State) : Heap × Except String (String × State) :=
  match conformOptionsH h r with
  | (h', .error e) => (h', .error e)
  | (h', .ok r1) => (h', createIdBody rf pr (readConformed h' r1) state)

/-! ### Basic facts about the session slot store and the counter -/

deriving instance DecidableEq for Except

/-- The memoized identity prefix of a session, as the string it contributes
to the hashed text (`idStr += ':' + count` coerces the slot value). -/
def idPref (f : BabelFile) : String := jsToString (getSlot f ID_STRING)

lemma getSlot_set_self (f : BabelFile) (k : Nat) (v : JsVal) :
    getSlot (setSlot f k v) k = v := by
  simp [getSlot, setSlot, List.lookup]

lemma getSlot_set_ne (f : BabelFile) (k k' : Nat) (v : JsVal) (h : k ≠ k') :
    getSlot (setSlot f k' v) k = getSlot f k := by
  have hb : (k == k') = false := by simp [h]
  simp [getSlot, setSlot, List.lookup, hb]

lemma counterOf_undef (f : BabelFile) (k : Nat) (h : getSlot f k = .undef) :
    counterOf f k = 0 := by
  simp [counterOf, jsOr, h, truthy]

lemma counterOf_numV (f : BabelFile) (k : Nat) (n : Int) (h : getSlot f k = .numV n) :
    counterOf f k = n := by
  simp only [counterOf, jsOr, h, truthy]
  by_cases h0 : n = 0 <;> simp [h0]

lemma counterOf_set_ne (f : BabelFile) (k k' : Nat) (v : JsVal) (h : k ≠ k') :
    counterOf (setSlot f k' v) k = counterOf f k := by
  simp [counterOf, getSlot_set_ne f k k' v h]

lemma str_ne_empty_of_pos (s : String) (h : 0 < s.length) : s ≠ "" := by
  intro he; subst he; simp at h

lemma append_left_ne_empty (a b : String) (ha : 0 < a.length) : a ++ b ≠ "" := by
  apply str_ne_empty_of_pos
  rw [String.length_append]
  omega

lemma buildIdStr_ne (pN pV : JsVal) (r p : String) : buildIdStr pN pV r p ≠ "" := by
  unfold buildIdStr
  split
  · exact append_left_ne_empty _ _ (by
      rw [String.length_append, String.length_append, String.length_append,
        String.length_append]
      have : ("package:" : String).length = 8 := rfl
      omega)
  · exact append_left_ne_empty _ _ (by
      have : ("path:" : String).length = 5 := rfl
      omega)

lemma getIdStrFromPath_ne (rf : String → FsRead) (pr : String → Option PkgFields)
    (path : String) (conf : Conformed) (s : String)
    (h : getIdStrFromPath rf pr path conf = .ok (some s)) : s ≠ "" := by
  unfold getIdStrFromPath at h
  rcases hrp : conf.rootPath with _ | rootPath <;> rw [hrp] at h <;> simp only [] at h
  · -- no rootPath: findPackageRoot branch
    cases hfp : findPackageRoot rf pr path with
    | error e => rw [hfp] at h; simp at h
    | ok props? =>
      rw [hfp] at h
      rcases props? with _ | props
      · simp at h
      · simp only [] at h
        cases hv : (conf.isPackage && !truthy (jsOfOptStr conf.packageName)) with
        | false =>
          rw [hv] at h
          simp at h
          subst h; exact buildIdStr_ne _ _ _ _
        | true =>
          rw [hv] at h
          simp only [if_pos] at h
          cases hvp : validatePackage props conf.errPre with
          | error e => rw [hvp] at h; simp at h
          | ok u =>
            rw [hvp] at h
            simp at h
            subst h; exact buildIdStr_ne _ _ _ _
  · -- rootPath given
    cases hv : (conf.isPackage && !truthy (jsOfOptStr conf.packageName)) with
    | false =>
      rw [hv] at h
      simp at h
      subst h; exact buildIdStr_ne _ _ _ _
    | true =>
      rw [hv] at h
      simp only [if_pos] at h
      cases hrj : readPackageJson rf pr rootPath with
      | error e => rw [hrj] at h; simp at h
      | ok props? =>
        rw [hrj] at h
        rcases props? with _ | props
        · simp at h
        · simp only [] at h
          cases hvp : validatePackage props conf.errPre with
          | error e => rw [hvp] at h; simp at h
          | ok u =>
            rw [hvp] at h
            simp at h
            subst h; exact buildIdStr_ne _ _ _ _

lemma finishToken_ok (conf : Conformed) (idStr : String) (file : BabelFile) :
    finishToken conf idStr file =
      .ok (shortHash (idStr ++ ":" ++ toString (counterOf file conf.counterKey)) conf.idLength,
        ⟨setSlot file conf.counterKey (.numV (counterOf file conf.counterKey + 1))⟩) := rfl

lemma finishToken_fresh (conf : Conformed) (f : BabelFile) (idStr tok : String) (st' : State)
    (hck : conf.counterKey ≠ ID_STRING) (hne : idStr ≠ "")
    (h : finishToken conf idStr (setSlot f ID_STRING (.strV idStr)) = .ok (tok, st')) :
    tok = shortHash (idPref st'.file ++ ":" ++ toString (counterOf f conf.counterKey))
        conf.idLength ∧
    getSlot st'.file conf.counterKey = .numV (counterOf f conf.counterKey + 1) ∧
    truthy (getSlot st'.file ID_STRING) = true := by
  have hks : ID_STRING ≠ conf.counterKey := Ne.symm hck
  rw [finishToken_ok] at h
  simp only [Except.ok.injEq, Prod.mk.injEq] at h
  obtain ⟨h1, h2⟩ := h
  subst h2
  have hcnt : counterOf (setSlot f ID_STRING (.strV idStr)) conf.counterKey
      = counterOf f conf.counterKey := counterOf_set_ne f conf.counterKey ID_STRING _ hck
  refine ⟨?_, ?_, ?_⟩
  · rw [← h1, hcnt]
    congr 1
    simp [idPref, getSlot_set_ne _ _ _ _ hks, getSlot_set_self, jsToString]
  · rw [getSlot_set_self, hcnt]
  · rw [getSlot_set_ne _ _ _ _ hks, getSlot_set_self]
    simpa [truthy] using hne

/-- Shape of every successful `createIdBody` call: the token is the short
hash of the session's (post-call) identity prefix followed by `:<count>`
with `count` the pre-call counter value; the counter slot is advanced to
`count + 1`; the identity slot is truthy afterwards, and is left unchanged
when it was truthy before. -/
lemma createIdBody_ok_shape (rf : String → FsRead) (pr : String → Option PkgFields)
    (conf : Conformed) (st : State) (tok : String) (st' : State)
    (hck : conf.counterKey ≠ ID_STRING)
    (h : createIdBody rf pr conf st = .ok (tok, st')) :
    tok = shortHash (idPref st'.file ++ ":" ++ toString (counterOf st.file conf.counterKey))
        conf.idLength ∧
    getSlot st'.file conf.counterKey = .numV (counterOf st.file conf.counterKey + 1) ∧
    truthy (getSlot st'.file ID_STRING) = true ∧
    (truthy (getSlot st.file ID_STRING) = true →
      getSlot st'.file ID_STRING = getSlot st.file ID_STRING) := by
  have hks : ID_STRING ≠ conf.counterKey := Ne.symm hck
  simp only [createIdBody] at h
  cases hc : truthy (getSlot st.file ID_STRING) with
  | true =>
    rw [if_pos hc] at h
    rw [finishToken_ok] at h
    simp only [Except.ok.injEq, Prod.mk.injEq] at h
    obtain ⟨h1, h2⟩ := h
    subst h2
    refine ⟨?_, ?_, ?_, ?_⟩
    · rw [← h1]
      congr 1
      simp [idPref, getSlot_set_ne _ _ _ _ hks]
    · simp only [getSlot_set_self]
    · rw [getSlot_set_ne _ _ _ _ hks]; exact hc
    · intro _; exact getSlot_set_ne _ _ _ _ hks
  | false =>
    rw [if_neg (by simp [hc])] at h
    have hfin : ∀ idStr : String, idStr ≠ "" →
        finishToken conf idStr (setSlot st.file ID_STRING (.strV idStr)) = .ok (tok, st') →
        tok = shortHash (idPref st'.file ++ ":" ++
            toString (counterOf st.file conf.counterKey)) conf.idLength ∧
        getSlot st'.file conf.counterKey = .numV (counterOf st.file conf.counterKey + 1) ∧
        truthy (getSlot st'.file ID_STRING) = true ∧
        (false = true → getSlot st'.file ID_STRING = getSlot st.file ID_STRING) := by
      intro idStr hne hft
      obtain ⟨g1, g2, g3⟩ := finishToken_fresh conf st.file idStr tok st' hck hne hft
      exact ⟨g1, g2, g3, fun hcon => absurd hcon (by simp)⟩
    have hcode : ("code:" ++ sha256Hash st.file.code) ≠ "" := by
      apply append_left_ne_empty
      have : ("code:" : String).length = 5 := rfl
      omega
    cases hfn : st.file.filename with
    | none =>
      rw [hfn] at h
      simp only [] at h
      exact hfin _ hcode h
    | some p =>
      rw [hfn] at h
      simp only [] at h
      by_cases hpe : p = ""
      · rw [if_pos hpe] at h
        simp only [] at h
        exact hfin _ hcode h
      · rw [if_neg hpe] at h
        cases hgid : getIdStrFromPath rf pr p conf with
        | error e => rw [hgid] at h; simp at h
        | ok fromPath =>
          rw [hgid] at h
          rcases fromPath with _ | s
          · simp only [] at h
            exact hfin _ hcode h
          · simp only [] at h
            exact hfin _ (getIdStrFromPath_ne rf pr p conf s hgid) h

lemma createId_conform (rf : String → FsRead) (pr : String → Option PkgFields)
    (st : State) (opts : Options) (conf : Conformed)
    (hc : conformOptions opts = .ok conf) :
    createId rf pr st opts = createIdBody rf pr conf st := by
  simp [createId, hc]

/-- Invariant of successive `createId` calls: the `k`-th returned token
(0-based) hashes the memoized identity prefix followed by the `k`-th counter
value, and a truthy identity slot is carried through unchanged. -/
lemma runSeq_tokens (rf : String → FsRead) (pr : String → Option PkgFields)
    (opts : Options) (conf : Conformed)
    (hc : conformOptions opts = .ok conf) (hck : conf.counterKey ≠ ID_STRING) :
    ∀ (n : Nat) (st : State) (toks : List String) (stN : State),
      runSeq rf pr opts n st = .ok (toks, stN) →
      toks.length = n ∧
      (truthy (getSlot st.file ID_STRING) = true →
        getSlot stN.file ID_STRING = getSlot st.file ID_STRING) ∧
      ∀ (k : Nat) (hk : k < toks.length),
        toks.get ⟨k, hk⟩ =
          shortHash (idPref stN.file ++ ":" ++
            toString (counterOf st.file conf.counterKey + k)) conf.idLength := by
  intro n
  induction n with
  | zero =>
    intro st toks stN h
    simp only [runSeq, Except.ok.injEq, Prod.mk.injEq] at h
    obtain ⟨h1, h2⟩ := h
    subst h1; subst h2
    exact ⟨rfl, fun _ => rfl, fun k hk => absurd hk (by simp)⟩
  | succ m ih =>
    intro st toks stN h
    rw [runSeq] at h
    cases hcr : createId rf pr st opts with
    | error e => rw [hcr] at h; simp at h
    | ok pair =>
      rcases pair with ⟨tok, st1⟩
      rw [hcr] at h
      simp only [] at h
      cases hrs : runSeq rf pr opts m st1 with
      | error e => rw [hrs] at h; simp at h
      | ok pair2 =>
        rcases pair2 with ⟨toks', stN1⟩
        rw [hrs] at h
        simp only [Except.ok.injEq, Prod.mk.injEq] at h
        obtain ⟨h1, h2⟩ := h
        subst h1
        subst h2
        have hb : createIdBody rf pr conf st = .ok (tok, st1) := by
          rw [← createId_conform rf pr st opts conf hc]; exact hcr
        obtain ⟨ht, hslot, htr, hpres⟩ :=
          createIdBody_ok_shape rf pr conf st tok st1 hck hb
        obtain ⟨hlen, hpres2, htoks⟩ := ih st1 toks' stN1 hrs
        have hcnt1 : counterOf st1.file conf.counterKey
            = counterOf st.file conf.counterKey + 1 :=
          counterOf_numV st1.file conf.counterKey _ hslot
        have hidN : getSlot stN1.file ID_STRING = getSlot st1.file ID_STRING := hpres2 htr
        refine ⟨by simp [hlen], ?_, ?_⟩
        · intro hst
          rw [hidN, hpres hst]
        · intro k hk
          cases k with
          | zero =>
            show tok = _
            rw [ht]
            have hidp : idPref stN1.file = idPref st1.file := by
              simp only [idPref, hidN]
            have harg0 : counterOf st.file conf.counterKey + ((0 : Nat) : Int)
                = counterOf st.file conf.counterKey := by push_cast; ring
            rw [hidp, harg0]
          | succ j =>
            have hj : j < toks'.length := by
              simp at hk
              omega
            show toks'.get ⟨j, hj⟩ = _
            have harg : counterOf st1.file conf.counterKey + (j : Int)
                = counterOf st.file conf.counterKey + ((j + 1 : Nat) : Int) := by
              rw [hcnt1]; push_cast; ring
            rw [htoks j hj, harg]

/-! ### Facts about options conformance -/

/-- An option field counts as supplied when it is neither `undefined` nor
`null` (`null` is stripped to `undefined` by the conformance copy). -/
def suppliedOpt (v : JsVal) : Prop := v ≠ .undef ∧ v ≠ .nullV

lemma nn_unsupplied (v : JsVal) (h : ¬suppliedOpt v) : nn v = .undef := by
  rcases v <;> simp_all [suppliedOpt, nn]

lemma nn_supplied (v : JsVal) (h : suppliedOpt v) : nn v = v := by
  rcases v <;> simp_all [suppliedOpt, nn]

lemma truthy_of_isFullString (v : JsVal) (h : isFullString v = true) : truthy v = true := by
  rcases v <;> simp_all [isFullString, truthy]

lemma truthy_undef : truthy .undef = false := rfl

/-- A value passing a `=== undefined || isFullString` check is not a symbol,
so interpolating it in the message template succeeds. -/
lemma jsTmpl_ok_of_check (v : JsVal) (h : (v == .undef || isFullString v) = true) :
    jsTmpl v = .ok (jsToString v) := by
  rcases v <;> simp_all [jsTmpl, isFullString]

/-- `idLength: 0` (not a positive integer) can never conform: every path
through `conformOptions` throws. -/
lemma conformOptions_zero_err (opts : Options) (h0 : opts.idLength = .numV 0) :
    ∃ e, conformOptions opts = .error e := by
  simp only [conformOptions, h0]
  repeat' split
  all_goals first | exact ⟨_, rfl⟩ | simp_all [nn, jsTmpl, jsToString, isPositiveInteger]

/-- A positive integer `idLength` is passed through unvalidated and
unclamped — there is no upper-bound (`≤ 41`) check. -/
lemma conformOptions_idLength_pass (opts : Options) (conf : Conformed) (n : Nat)
    (hpos : 0 < n)
    (h : conformOptions opts = .ok conf) (hn : opts.idLength = .numV (n : Int)) :
    conf.idLength = n := by
  simp only [conformOptions, hn] at h
  repeat' split at h
  all_goals simp_all [nn, jsTmpl, jsToString, isPositiveInteger, hpos]
  all_goals (subst h; simp)

/-- Supplying exactly one of `packageName`/`packageVersion` always throws:
either the supplied one fails the non-empty-string check, or the pairing
invariant fires. -/
lemma conformOptions_pairing_err (opts : Options)
    (h : (suppliedOpt opts.packageName ∧ ¬suppliedOpt opts.packageVersion) ∨
         (¬suppliedOpt opts.packageName ∧ suppliedOpt opts.packageVersion)) :
    ∃ e, conformOptions opts = .error e := by
  simp only [conformOptions]
  repeat' split
  all_goals try exact ⟨_, rfl⟩
  all_goals exfalso
  all_goals rcases h with ⟨hs, hu⟩ | ⟨hu, hs⟩
  all_goals rw [nn_unsupplied _ hu] at *
  all_goals rw [nn_supplied _ hs] at *
  all_goals simp_all [suppliedOpt, truthy_of_isFullString, truthy_undef]

/-- A supplied `counterKey` of *any* type always throws (whatever the
other options are): a non-symbol fails the `isSymbol` check, and a symbol
throws while the message template literal stringifies it. -/
lemma conformOptions_ck_err (opts : Options) (v : JsVal)
    (hv : opts.counterKey = v) (hs : suppliedOpt v) :
    ∃ e, conformOptions opts = .error e := by
  have hnn : nn opts.counterKey = v := by rw [hv]; exact nn_supplied v hs
  simp only [conformOptions, hnn]
  rcases v with _ | _ | b | n | s | i | _
  · exact absurd rfl hs.1
  · exact absurd rfl hs.2
  all_goals simp only [jsTmpl, jsToString]
  all_goals repeat' split
  all_goals exact ⟨_, rfl⟩

/-- `jsTmpl` on an integer (as at the `idLength` site). -/
lemma jsTmpl_numV (n : Int) : jsTmpl (.numV n) = .ok (toString n) := rfl

/-- When every other option passes validation, a supplied `counterKey`
still always throws — no value ever conforms: a non-symbol value throws
precisely the mislabeled `options.pluginName` message, and a symbol value
(the only one the check would accept) throws precisely the `ToString`
`TypeError` raised while the eagerly-evaluated message template literal
stringifies it. -/
lemma conformOptions_ck_precise (opts : Options)
    (hpl : (nn opts.pluginName == .undef || isFullString (nn opts.pluginName)) = true)
    (hrp : (nn opts.rootPath == .undef || isFullString (nn opts.rootPath)) = true)
    (hpn : (nn opts.packageName == .undef || isFullString (nn opts.packageName)) = true)
    (hpv : (nn opts.packageVersion == .undef || isFullString (nn opts.packageVersion)) = true)
    (hip : nn opts.isPackage = .undef ∨ ∃ b, nn opts.isPackage = .boolV b)
    (hpair : truthy (nn opts.packageName) = truthy (nn opts.packageVersion))
    (hid : nn opts.idLength = .undef ∨ ∃ n : Int, nn opts.idLength = .numV n ∧ 0 < n) :
    (∀ v, nn opts.counterKey = v → v ≠ .undef → isSymbol v = false →
      conformOptions opts = .error (errPreOf opts ++
        "options.pluginName must be a Symbol if provided - got " ++ jsToString v)) ∧
    (∀ i, nn opts.counterKey = .symV i →
      conformOptions opts = .error
        "TypeError: Cannot convert a Symbol value to a string") := by
  constructor
  · intro v hv hvu hvs
    simp only [conformOptions]
    rw [jsTmpl_ok_of_check _ hpl]
    simp only []
    rw [if_neg (by simp [hpl])]
    rw [jsTmpl_ok_of_check _ hrp]
    simp only []
    rw [if_neg (by simp [hrp])]
    rw [jsTmpl_ok_of_check _ hpn]
    simp only []
    rw [if_neg (by simp [hpn])]
    rw [jsTmpl_ok_of_check _ hpv]
    simp only []
    rw [if_neg (by simp [hpv])]
    rcases hip with hip | ⟨b, hip⟩ <;> rw [hip] <;> simp only [] <;>
      rw [if_neg (by simp [hpair])] <;>
      (rcases hid with hid | ⟨n, hid, hpos⟩ <;> rw [hid] <;> simp only []) <;>
      (try rw [jsTmpl_numV]) <;> (try simp only []) <;>
      (try rw [if_pos (show isPositiveInteger (JsVal.numV n) = true by
        simp [isPositiveInteger]; exact hpos)])
    all_goals rw [hv]
    all_goals rcases v <;> simp_all [jsTmpl, jsToString, isSymbol]
  · intro i hv
    simp only [conformOptions]
    rw [jsTmpl_ok_of_check _ hpl]
    simp only []
    rw [if_neg (by simp [hpl])]
    rw [jsTmpl_ok_of_check _ hrp]
    simp only []
    rw [if_neg (by simp [hrp])]
    rw [jsTmpl_ok_of_check _ hpn]
    simp only []
    rw [if_neg (by simp [hpn])]
    rw [jsTmpl_ok_of_check _ hpv]
    simp only []
    rw [if_neg (by simp [hpv])]
    rcases hip with hip | ⟨b, hip⟩ <;> rw [hip] <;> simp only [] <;>
      rw [if_neg (by simp [hpair])] <;>
      (rcases hid with hid | ⟨n, hid, hpos⟩ <;> rw [hid] <;> simp only []) <;>
      (try rw [jsTmpl_numV]) <;> (try simp only []) <;>
      (try rw [if_pos (show isPositiveInteger (JsVal.numV n) = true by
        simp [isPositiveInteger]; exact hpos)])
    all_goals rw [hv]
    all_goals simp [jsTmpl]

/-! ### Alphabet and length facts about `shortHash` -/

/-- The legal-identifier alphabet guaranteed for tokens:
`A-Z a-z 0-9 _ $`. -/
def idAlphabet : List Char :=
  "ABCDEFGHIJKLMNOPQRSTUVWXYZabcdefghijklmnopqrstuvwxyz0123456789_$".data

lemma sha256_length (m : List Nat) : (sha256 m).length = 32 := by
  simp [sha256, wordBytes]

lemma wordBytes_lt (w : Nat) : ∀ b ∈ wordBytes w, b < 256 := by
  intro b hb
  simp [wordBytes] at hb
  rcases hb with rfl | rfl | rfl | rfl <;> omega

lemma sha256_bytes_lt (m : List Nat) : ∀ b ∈ sha256 m, b < 256 := by
  intro b hb
  simp only [sha256, List.mem_append] at hb
  rcases hb with (((((((hb | hb) | hb) | hb) | hb) | hb) | hb) | hb) <;>
    exact wordBytes_lt _ _ hb

lemma b64Char_mem : ∀ i, i < 64 → b64Char i ∈ b64Alphabet := by decide

lemma b64Alphabet_no_eq : ∀ c ∈ b64Alphabet, (c == '=') = false := by decide

lemma replaceB64_id_mem : ∀ c ∈ b64Alphabet, replaceB64 c ∈ idAlphabet := by decide

lemma b64Char_low_not_digit : ∀ i, i < 32 → (replaceB64 (b64Char i)).isDigit = false := by
  decide

/-- Structure of the base64 rendering of a byte list whose length is
`2 mod 3` (such as the 32-byte SHA-256 digest): all characters are alphabet
characters except a single trailing `=`, and the unpadded part has
`4 * (len / 3) + 3` characters. -/
lemma base64Chars_structure :
    ∀ (l : List Nat), (∀ b ∈ l, b < 256) → l.length % 3 = 2 →
      ∃ main : List Char, base64Chars l = main ++ ['='] ∧
        main.length = 4 * (l.length / 3) + 3 ∧
        ∀ c ∈ main, c ∈ b64Alphabet := by
  intro l
  induction l using base64Chars.induct with
  | case1 =>
    intro _ hmod
    simp at hmod
  | case2 b1 =>
    intro _ hmod
    simp at hmod
  | case3 b1 b2 =>
    intro hlt _
    refine ⟨[b64Char (b1 / 4), b64Char (b1 % 4 * 16 + b2 / 16), b64Char (b2 % 16 * 4)],
      rfl, by simp, ?_⟩
    have hb1 : b1 < 256 := hlt b1 (by simp)
    have hb2 : b2 < 256 := hlt b2 (by simp)
    intro c hc
    simp at hc
    rcases hc with rfl | rfl | rfl
    · exact b64Char_mem _ (by omega)
    · exact b64Char_mem _ (by omega)
    · exact b64Char_mem _ (by omega)
  | case4 b1 b2 b3 rest ih =>
    intro hlt hmod
    have hb1 : b1 < 256 := hlt b1 (by simp)
    have hb2 : b2 < 256 := hlt b2 (by simp)
    have hb3 : b3 < 256 := hlt b3 (by simp)
    have hrest : ∀ b ∈ rest, b < 256 := fun b hb => hlt b (by simp [hb])
    have hrmod : rest.length % 3 = 2 := by
      simp at hmod
      omega
    obtain ⟨main', hmain', hlen', hmem'⟩ := ih hrest hrmod
    set n := b1 * 65536 + b2 * 256 + b3 with hn
    refine ⟨b64Char (n / 262144) :: b64Char (n / 4096 % 64) :: b64Char (n / 64 % 64) ::
      b64Char (n % 64) :: main', ?_, ?_, ?_⟩
    · show base64Chars (b1 :: b2 :: b3 :: rest) = _
      rw [base64Chars, hmain']
      simp
    · simp only [List.length_cons, hlen']
      omega
    · intro c hc
      simp only [List.mem_cons] at hc
      rcases hc with rfl | rfl | rfl | rfl | hc
      · exact b64Char_mem _ (by omega)
      · exact b64Char_mem _ (by omega)
      · exact b64Char_mem _ (by omega)
      · exact b64Char_mem _ (by omega)
      · exact hmem' c hc

lemma stripEq_of_no_eq (l : List Char) (h : ∀ c ∈ l, (c == '=') = false) :
    stripEq l = l := by
  unfold stripEq
  rcases hl : l.reverse with _ | ⟨c, cs⟩
  · have : l = [] := by simpa using congrArg List.reverse hl
    subst this
    rfl
  · have hcmem : c ∈ l := by
      have : c ∈ l.reverse := by rw [hl]; simp
      simpa using this
    rw [List.dropWhile_cons_of_neg (by simp [h c hcmem])]
    rw [← hl, List.reverse_reverse]

/-- Alphabet, leading-character and exact-length guarantees of `shortHash`
for any input string and any requested length in `1..41`. -/
lemma shortHash_spec (str : String) (len : Nat) (h1 : 1 ≤ len) (h41 : len ≤ 41) :
    (shortHash str len).length = len ∧
    (∀ c ∈ (shortHash str len).data, c ∈ idAlphabet) ∧
    (∀ c, (shortHash str len).data.head? = some c → c.isDigit = false) := by
  have hmlen : (sha256 (utf8Bytes str)).length = 32 := sha256_length _
  have hmlt := sha256_bytes_lt (utf8Bytes str)
  obtain ⟨b0, rest, hm⟩ : ∃ b0 rest, sha256 (utf8Bytes str) = b0 :: rest := by
    cases hx : sha256 (utf8Bytes str) with
    | nil => rw [hx] at hmlen; simp at hmlen
    | cons b r => exact ⟨b, r, rfl⟩
  set buf := maskHead (sha256 (utf8Bytes str)) with hbuf
  have hbufeq : buf = (b0 &&& 127) :: rest := by rw [hbuf, hm]; rfl
  have hb0 : b0 &&& 127 < 128 := lt_of_le_of_lt Nat.and_le_right (by norm_num)
  have hrestlen : rest.length = 31 := by
    rw [hm] at hmlen; simpa using hmlen
  have hrestlt : ∀ b ∈ rest, b < 256 := by
    intro b hb
    exact hmlt b (by rw [hm]; simp [hb])
  have hbuflt : ∀ b ∈ buf, b < 256 := by
    rw [hbufeq]
    intro b hb
    rcases List.mem_cons.mp hb with rfl | hb
    · omega
    · exact hrestlt b hb
  have hbuflen : buf.length = 32 := by
    rw [hbufeq]; simp [hrestlen]
  obtain ⟨main, hmain, hmainlen, hmainmem⟩ :=
    base64Chars_structure buf hbuflt (by rw [hbuflen])
  have hmain43 : main.length = 43 := by rw [hmainlen, hbuflen]
  -- decompose the first base64 group
  obtain ⟨b1, b2, rest2, hrest⟩ : ∃ b1 b2 rest2, rest = b1 :: b2 :: rest2 := by
    rcases rest with _ | ⟨x, _ | ⟨y, r⟩⟩
    · simp at hrestlen
    · simp at hrestlen
    · exact ⟨x, y, r, rfl⟩
  have hb1 : b1 < 256 := hrestlt b1 (by rw [hrest]; simp)
  have hb2 : b2 < 256 := hrestlt b2 (by rw [hrest]; simp)
  have hhead : base64Chars buf =
      b64Char (((b0 &&& 127) * 65536 + b1 * 256 + b2) / 262144) ::
        (b64Char (((b0 &&& 127) * 65536 + b1 * 256 + b2) / 4096 % 64) ::
         b64Char (((b0 &&& 127) * 65536 + b1 * 256 + b2) / 64 % 64) ::
         b64Char (((b0 &&& 127) * 65536 + b1 * 256 + b2) % 64) :: base64Chars rest2) := by
    rw [hbufeq, hrest]
    rfl
  have hdiv : ((b0 &&& 127) * 65536 + b1 * 256 + b2) / 262144 = (b0 &&& 127) / 4 := by
    omega
  obtain ⟨mtl, hmtl⟩ : ∃ mtl, main = b64Char ((b0 &&& 127) / 4) :: mtl := by
    cases hmx : main with
    | nil => rw [hmx] at hmain43; simp at hmain43
    | cons c mtl =>
      rw [hmx] at hmain
      rw [hmain] at hhead
      simp only [List.cons_append, List.cons.injEq] at hhead
      exact ⟨mtl, by rw [hhead.1, hdiv]⟩
  -- the truncated, unpadded, substituted rendering
  have htake : (base64Chars buf).take len = main.take len := by
    rw [hmain]
    exact List.take_append_of_le_length (by omega)
  have htakemem : ∀ c ∈ main.take len, c ∈ b64Alphabet :=
    fun c hc => hmainmem c (List.take_subset _ _ hc)
  have hstrip : stripEq (main.take len) = main.take len :=
    stripEq_of_no_eq _ (fun c hc => b64Alphabet_no_eq c (htakemem c hc))
  have hout : shortHash str len = ⟨(main.take len).map replaceB64⟩ := by
    show (⟨(stripEq ((base64Chars buf).take len)).map replaceB64⟩ : String) = _
    rw [htake, hstrip]
  refine ⟨?_, ?_, ?_⟩
  · rw [hout]
    show ((main.take len).map replaceB64).length = len
    rw [List.length_map, List.length_take]
    omega
  · rw [hout]
    intro c hc
    simp only [List.mem_map] at hc
    obtain ⟨c', hc', rfl⟩ := hc
    exact replaceB64_id_mem c' (htakemem c' hc')
  · rw [hout]
    intro c hc
    obtain ⟨k, rfl⟩ : ∃ k, len = k + 1 := ⟨len - 1, by omega⟩
    rw [hmtl] at hc
    simp only [List.take_succ_cons, List.map_cons, List.head?_cons, Option.some.injEq] at hc
    rw [← hc]
    exact b64Char_low_not_digit _ (by omega)

/-! ### Frame lemmas for the heap model -/

lemma heapGet_write_ne (h : Heap) (r1 : Nat) (k : String) (v : JsVal) (r : Nat)
    (hne : r ≠ r1) : heapGet (heapWrite h r1 k v) r = heapGet h r := by
  simp [heapGet, heapWrite, hne]

lemma heapGet_alloc_lt (h : Heap) (o : JsObj) (r : Nat) (hr : r < h.next) :
    heapGet (heapAlloc h o) r = heapGet h r := by
  simp [heapGet, heapAlloc, Nat.ne_of_lt hr]

lemma heapGet_stripNulls_ne (h : Heap) (r1 r : Nat) (hne : r ≠ r1) :
    heapGet (stripNullsH h r1) r = heapGet h r := by
  unfold stripNullsH
  generalize heapGet h r1 = l
  induction l generalizing h with
  | nil => rfl
  | cons kv tl ih =>
    simp only [List.foldl_cons]
    have hstep : ∀ h' : Heap,
        heapGet (if objGet (heapGet h' r1) kv.1 = .nullV then
          heapWrite h' r1 kv.1 .undef else h') r = heapGet h' r := by
      intro h'
      split
      · exact heapGet_write_ne _ _ _ _ _ hne
      · rfl
    exact (ih _).trans (hstep h)

lemma conformCkH_frame (h : Heap) (r1 : Nat) (pre : String) (r : Nat) (hne : r ≠ r1) :
    heapGet (conformCkH h r1 pre).1 r = heapGet h r := by
  unfold conformCkH
  repeat' split
  all_goals simp [heapGet_write_ne _ _ _ _ _ hne]

lemma conformIdLenH_frame (h : Heap) (r1 : Nat) (pre : String) (r : Nat) (hne : r ≠ r1) :
    heapGet (conformIdLenH h r1 pre).1 r = heapGet h r := by
  unfold conformIdLenH
  repeat' split
  all_goals first
    | rw [conformCkH_frame _ _ _ _ hne, heapGet_write_ne _ _ _ _ _ hne]
    | exact conformCkH_frame _ _ _ _ hne
    | rfl

lemma conformPairH_frame (h : Heap) (r1 : Nat) (pre : String) (r : Nat) (hne : r ≠ r1) :
    heapGet (conformPairH h r1 pre).1 r = heapGet h r := by
  unfold conformPairH
  split
  · rfl
  · exact conformIdLenH_frame _ _ _ _ hne

lemma conformIsPkgH_frame (h : Heap) (r1 : Nat) (pre : String) (r : Nat) (hne : r ≠ r1) :
    heapGet (conformIsPkgH h r1 pre).1 r = heapGet h r := by
  unfold conformIsPkgH
  repeat' split
  all_goals first
    | rw [conformPairH_frame _ _ _ _ hne, heapGet_write_ne _ _ _ _ _ hne]
    | exact conformPairH_frame _ _ _ _ hne
    | rfl

/-- `conformOptions` on the heap never changes the caller's options object:
all writes target the freshly-allocated copy. -/
lemma conformOptionsH_frame (h0 : Heap) (r : Nat) (hr : r < h0.next) :
    heapGet (conformOptionsH h0 r).1 r = heapGet h0 r := by
  have hne : r ≠ h0.next := Nat.ne_of_lt hr
  have hbase : heapGet (stripNullsH (heapAlloc h0 (heapGet h0 r)) h0.next) r
      = heapGet h0 r := by
    rw [heapGet_stripNulls_ne _ _ _ hne, heapGet_alloc_lt _ _ _ hr]
  unfold conformOptionsH
  simp only []
  repeat' split
  all_goals simp [conformIsPkgH_frame _ _ _ _ hne, heapGet_write_ne _ _ _ _ _ hne, hbase]

/-- `createId` on the heap never changes the caller's options object. -/
lemma createIdH_frame (rf : String → FsRead) (pr : String → Option PkgFields)
    (h0 : Heap) (r : Nat) (state : State) (hr : r < h0.next) :
    heapGet (createIdH rf pr h0 r state).1 r = heapGet h0 r := by
  unfold createIdH
  cases hco : conformOptionsH h0 r with
  | mk h' res =>
    have := conformOptionsH_frame h0 r hr
    rw [hco] at this
    cases res <;> simpa using this

/-! ### Walk unfolding -/

lemma ancestors_fix (s : String) (h : dirname s = s) : ancestors s = [] := by
  rw [ancestors]
  simp [h]

lemma ancestors_step (s : String) (h : dirname s ≠ s) :
    ancestors s = dirname s :: ancestors (dirname s) := by
  rw [ancestors]
  simp [h]

/-! ### Concrete fixtures -/

/-- `true` exactly when a `createId` call threw. -/
def isErr {α : Type} : Except String α → Bool
  | .error _ => true
  | .ok _ => false

/-- Filesystem oracle with no files at all (every read is `ENOENT`). -/
def rf0 : String → FsRead := fun _ => .notFound

/-- `JSON.parse` oracle (irrelevant for sessions without a file path). -/
def pr0 : String → Option PkgFields := fun _ => none

/-- A session for source text `"foo();"` with no file path. -/
def st0 : State := ⟨⟨none, "foo();", []⟩⟩

def opts8 : Options := { idLength := .numV 8 }

/-- base64 SHA-256 of `"foo();"`, as memoized by the first call. -/
def idStrFoo : String := "code:qMVaiPhbudnaz91QqECVnbdTvKWnqeultnb/Nt/ybo8="

/-- `st0` after one `createId` call with the default counter key. -/
def st1 : State := ⟨⟨none, "foo();", [(ID_COUNTER, .numV 1), (ID_STRING, .strV idStrFoo)]⟩⟩

/-- `st0` after two `createId` calls with the default counter key. -/
def st2 : State :=
  ⟨⟨none, "foo();", [(ID_COUNTER, .numV 2), (ID_COUNTER, .numV 1), (ID_STRING, .strV idStrFoo)]⟩⟩

def optsZero : Options := { idLength := .numV 0 }

def opts42 : Options := { idLength := .numV 42 }

def conf42 : Conformed := ⟨none, false, none, none, 42, "", ID_COUNTER⟩

/-- The 42-character token produced for `idLength: 42`. -/
def tok42 : String := "AcQ5z4SvFOrY9udlC_CpKHHg2yKubl$vi1Q559aaui"

/-- Contents of `/app/package.json` in the C1 scenario. -/
def pkgTextC1 : String := "\x7b\"name\":\"mypkg\",\"version\":\"1.0.0\"\x7d"

def rfC1 : String → FsRead :=
  fun p => if p = "/app/package.json" then .content pkgTextC1 else .notFound

def prC1 : String → Option PkgFields :=
  fun s => if s = pkgTextC1 then some ⟨.strV "mypkg", .strV "1.0.0"⟩ else none

def optsC1 : Options := { rootPath := .strV "/app", isPackage := .boolV true }

def confC1 : Conformed := ⟨some "/app", true, none, none, 8, "", ID_COUNTER⟩

def stC1 : State := ⟨⟨some "/app/index.js", "foo();", []⟩⟩

/-- Options supplying a symbol `counterKey` (symbol id `5`). -/
def optsC5 : Options := { idLength := .numV 8, counterKey := .symV 5 }

/-- The conformed options for `opts8` (all defaults except `idLength`). -/
def conf8 : Conformed := ⟨none, false, none, none, 8, "", ID_COUNTER⟩

/-- A session whose identity string is already memoized. -/
def stC6 : State := ⟨⟨none, "other source", [(ID_STRING, .strV "path:x.js")]⟩⟩

def stC6a : State :=
  ⟨⟨none, "other source", [(ID_COUNTER, .numV 1), (ID_STRING, .strV "path:x.js")]⟩⟩

/-- Filesystem oracle where every read fails with a non-`ENOENT` error. -/
def rfBoom : String → FsRead := fun _ => .ioError "EACCES: permission denied"

def prBoom : String → Option PkgFields := fun _ => some ⟨.strV "ghost", .strV "9.9.9"⟩

def optsC8 : Options := { packageName := .strV "x" }

/-- A one-object heap holding an options object at reference `0`. -/
def heap0 : Heap := ⟨fun i => if i = 0 then [("idLength", .numV 8)] else [], 1⟩

def optsC10 : Options := { counterKey := .strV "k", pluginName := .strV "myplug" }

/-- All options other than `counterKey` pass their validation checks. -/
def otherOptsValid (opts : Options) : Prop :=
  (nn opts.pluginName == .undef || isFullString (nn opts.pluginName)) = true ∧
  (nn opts.rootPath == .undef || isFullString (nn opts.rootPath)) = true ∧
  (nn opts.packageName == .undef || isFullString (nn opts.packageName)) = true ∧
  (nn opts.packageVersion == .undef || isFullString (nn opts.packageVersion)) = true ∧
  (nn opts.isPackage = .undef ∨ ∃ b, nn opts.isPackage = .boolV b) ∧
  truthy (nn opts.packageName) = truthy (nn opts.packageVersion) ∧
  (nn opts.idLength = .undef ∨ ∃ n : Int, nn opts.idLength = .numV n ∧ 0 < n)

set_option maxRecDepth 40000

/-! ### Claim theorems -/

/-- C1: with `rootPath` supplied, `isPackage: true` and no explicit
`packageName`, the identity string the code builds is
`package:<name>@<name>:<relativePath>` — the `rootPath` branch of
`getIdStrFromPath` assigns `packageVersion = packageProps.name`, so the
descriptor's `version` (`"1.0.0"` here) never reaches the identity string,
contradicting the specified `package:<name>@<version>:<relativePath>`. -/
theorem c1_rootPath_version_bug :
    conformOptions optsC1 = .ok confC1 ∧
    getIdStrFromPath rfC1 prC1 "/app/index.js" confC1 =
      .ok (some "package:mypkg@mypkg:index.js") ∧
    createId rfC1 prC1 stC1 optsC1 =
      .ok (shortHash "package:mypkg@mypkg:index.js:0" 8,
        ⟨⟨some "/app/index.js", "foo();",
          [(ID_COUNTER, .numV 1), (ID_STRING, .strV "package:mypkg@mypkg:index.js")]⟩⟩) ∧
    "package:mypkg@mypkg:index.js" ≠ "package:mypkg@1.0.0:index.js" := by
  exact ⟨by decide, by decide, by decide, by decide⟩

/-- C2 (counterexample): `idLength: 42` — outside the claimed `[1,41]`
range — is accepted: `createId` succeeds and returns a 42-character token
rather than failing with a configuration error. -/
theorem c2_counterexample :
    createId rf0 pr0 st0 opts42 = .ok (tok42, st1) ∧ tok42.length = 42 := by
  exact ⟨by decide, by decide⟩

/-- C2 (amended): a configuration whose `idLength` is not a positive
integer (in particular `0`) makes `createId` fail with a fatal
configuration error and return no token; a positive integer `idLength`
(including any value greater than 41) passes validation unchanged. -/
theorem c2_idLength_validation (rf : String → FsRead) (pr : String → Option PkgFields)
    (st : State) (opts : Options) :
    (opts.idLength = .numV 0 → ∃ e, createId rf pr st opts = .error e) ∧
    (∀ (conf : Conformed) (n : Nat), 0 < n → conformOptions opts = .ok conf →
      opts.idLength = .numV (n : Int) → conf.idLength = n) := by
  constructor
  · intro h0
    obtain ⟨e, he⟩ := conformOptions_zero_err opts h0
    exact ⟨e, by simp [createId, he]⟩
  · intro conf n hpos hconf hn
    exact conformOptions_idLength_pass opts conf n hpos hconf hn

/-- C2 witness: at `idLength: 0` the call throws; at `idLength: 42` the
conformed length is 42. -/
theorem c2_witness :
    isErr (createId rf0 pr0 st0 optsZero) = true ∧ conf42.idLength = 42 := by
  constructor
  · obtain ⟨e, he⟩ := (c2_idLength_validation rf0 pr0 st0 optsZero).1 (by decide)
    rw [he]
    rfl
  · exact (c2_idLength_validation rf0 pr0 st0 opts42).2 conf42 42 (by decide) (by decide)
      (by decide)

/-- C3 (counterexample): for source `"foo();"`, no path and `idLength: 8`,
the second call on the same session returns `"Wr4qdHBd"`, not the claimed
`"CRLVr5wz"` (that token belongs to the `"foo();bar();"` fixture). -/
theorem c3_counterexample :
    (runSeq rf0 pr0 opts8 2 st0).map Prod.fst = Except.ok ["AcQ5z4Sv", "Wr4qdHBd"] ∧
    ("Wr4qdHBd" : String) ≠ "CRLVr5wz" := by
  exact ⟨by decide, by decide⟩

/-- C3 (amended): the first call builds identity string
`code:qMVaiPhbudnaz91QqECVnbdTvKWnqeultnb/Nt/ybo8=` (base64 SHA-256 of the
source), hashes it with `:0` to token `"AcQ5z4Sv"`, and the second call on
the same session hashes `:1` to `"Wr4qdHBd"`, distinct from the first. -/
theorem c3_code_fixture :
    createId rf0 pr0 st0 opts8 = .ok ("AcQ5z4Sv", st1) ∧
    getSlot st1.file ID_STRING = .strV idStrFoo ∧
    idStrFoo = "code:" ++ sha256Hash "foo();" ∧
    shortHash (idStrFoo ++ ":0") 8 = "AcQ5z4Sv" ∧
    createId rf0 pr0 st1 opts8 = .ok ("Wr4qdHBd", st2) ∧
    shortHash (idStrFoo ++ ":1") 8 = "Wr4qdHBd" ∧
    ("AcQ5z4Sv" : String) ≠ "Wr4qdHBd" := by
  exact ⟨by decide, by decide, by decide, by decide, by decide, by decide, by decide⟩

lemma createIdBody_tok (rf : String → FsRead) (pr : String → Option PkgFields)
    (conf : Conformed) (st : State) (tok : String) (st' : State)
    (h : createIdBody rf pr conf st = .ok (tok, st')) :
    ∃ s, tok = shortHash s conf.idLength := by
  simp only [createIdBody] at h
  by_cases hc : truthy (getSlot st.file ID_STRING) = true
  · rw [if_pos hc, finishToken_ok] at h
    simp only [Except.ok.injEq, Prod.mk.injEq] at h
    exact ⟨_, h.1.symm⟩
  · rw [if_neg hc] at h
    cases hfn : st.file.filename with
    | none =>
      rw [hfn] at h
      simp only [] at h
      rw [finishToken_ok] at h
      simp only [Except.ok.injEq, Prod.mk.injEq] at h
      exact ⟨_, h.1.symm⟩
    | some p =>
      rw [hfn] at h
      simp only [] at h
      by_cases hpe : p = ""
      · rw [if_pos hpe] at h
        simp only [] at h
        rw [finishToken_ok] at h
        simp only [Except.ok.injEq, Prod.mk.injEq] at h
        exact ⟨_, h.1.symm⟩
      · rw [if_neg hpe] at h
        cases hgid : getIdStrFromPath rf pr p conf with
        | error e => rw [hgid] at h; simp at h
        | ok fromPath =>
          rw [hgid] at h
          rcases fromPath with _ | s <;> simp only [] at h <;>
            rw [finishToken_ok] at h <;>
            simp only [Except.ok.injEq, Prod.mk.injEq] at h <;>
            exact ⟨_, h.1.symm⟩

/-- C4: for every input string and every `idLength` in `1..41`, the token
produced by `shortHash` is exactly `idLength` characters of the identifier
alphabet `[A-Za-z0-9_$]` and never begins with a digit; and every token a
successful `createId` call returns with such a conformed `idLength`
satisfies the same three guarantees. -/
theorem c4_token_alphabet (str : String) (len : Nat) (h1 : 1 ≤ len) (h41 : len ≤ 41) :
    ((shortHash str len).length = len ∧
     (∀ c ∈ (shortHash str len).data, c ∈ idAlphabet) ∧
     (∀ c, (shortHash str len).data.head? = some c → c.isDigit = false)) ∧
    (∀ (rf : String → FsRead) (pr : String → Option PkgFields) (st : State)
       (opts : Options) (conf : Conformed) (tok : String) (st' : State),
       conformOptions opts = .ok conf → conf.idLength = len →
       createId rf pr st opts = .ok (tok, st') →
       tok.length = len ∧ (∀ c ∈ tok.data, c ∈ idAlphabet) ∧
         (∀ c, tok.data.head? = some c → c.isDigit = false)) := by
  refine ⟨shortHash_spec str len h1 h41, ?_⟩
  intro rf pr st opts conf tok st' hconf hlen hcr
  rw [createId_conform rf pr st opts conf hconf] at hcr
  obtain ⟨s, rfl⟩ := createIdBody_tok rf pr conf st tok st' hcr
  rw [hlen]
  exact shortHash_spec s len h1 h41

/-- C4 witness: the concrete token for input `"x"` at length 8. -/
theorem c4_witness :
    (1 ≤ 8 ∧ 8 ≤ 41) ∧ (shortHash "x" 8).length = 8 ∧ shortHash "x" 8 = "LXEWQrcm" := by
  have h := c4_token_alphabet "x" 8 (by decide) (by decide)
  exact ⟨⟨by decide, by decide⟩, h.1.1, by decide⟩

/-- C5: the counter stored under `counterKey` reads as 0 when the slot is
unset; every successful call hashes `<identity>:<count>` with the
pre-increment counter value and writes back `count + 1`; hence on a fresh
session the `k`-th call (0-based) hashes `<identity>:<k>`.  (`counterKey`
symbols are distinct from the module's private `ID_STRING` symbol, which
the numeric symbol ids must state explicitly.) -/
theorem c5_counter_semantics (rf : String → FsRead) (pr : String → Option PkgFields)
    (st : State) (opts : Options) (conf : Conformed)
    (hconf : conformOptions opts = .ok conf) (hck : conf.counterKey ≠ ID_STRING) :
    (getSlot st.file conf.counterKey = .undef → counterOf st.file conf.counterKey = 0) ∧
    (∀ n : Int, getSlot st.file conf.counterKey = .numV n →
      counterOf st.file conf.counterKey = n) ∧
    (∀ tok st', createId rf pr st opts = .ok (tok, st') →
      tok = shortHash (idPref st'.file ++ ":" ++
        toString (counterOf st.file conf.counterKey)) conf.idLength ∧
      getSlot st'.file conf.counterKey = .numV (counterOf st.file conf.counterKey + 1)) ∧
    (∀ (n : Nat) (toks : List String) (stN : State),
      getSlot st.file conf.counterKey = .undef →
      runSeq rf pr opts n st = .ok (toks, stN) →
      ∀ (k : Nat) (hk : k < toks.length),
        toks.get ⟨k, hk⟩ =
          shortHash (idPref stN.file ++ ":" ++ toString (k : Int)) conf.idLength) := by
  refine ⟨counterOf_undef st.file conf.counterKey,
    counterOf_numV st.file conf.counterKey, ?_, ?_⟩
  · intro tok st' hcr
    rw [createId_conform rf pr st opts conf hconf] at hcr
    obtain ⟨h1, h2, _, _⟩ := createIdBody_ok_shape rf pr conf st tok st' hck hcr
    exact ⟨h1, h2⟩
  · intro n toks stN hundef hrun k hk
    obtain ⟨_, _, htoks⟩ := runSeq_tokens rf pr opts conf hconf hck n st toks stN hrun
    rw [htoks k hk, counterOf_undef st.file conf.counterKey hundef]
    norm_num

/-- C5 witness: a fresh session with the default counter key reads counter
0, returns the `:0` token and stores 1. -/
theorem c5_witness :
    conformOptions opts8 = .ok conf8 ∧
    getSlot st0.file conf8.counterKey = .undef ∧
    createId rf0 pr0 st0 opts8 = .ok ("AcQ5z4Sv", st1) ∧
    "AcQ5z4Sv" = shortHash (idPref st1.file ++ ":" ++
      toString (counterOf st0.file conf8.counterKey)) conf8.idLength ∧
    getSlot st1.file conf8.counterKey =
      .numV (counterOf st0.file conf8.counterKey + 1) := by
  have h := c5_counter_semantics rf0 pr0 st0 opts8 conf8 (by decide) (by decide)
  have hcr : createId rf0 pr0 st0 opts8 = .ok ("AcQ5z4Sv", st1) := by decide
  obtain ⟨-, -, hstep, -⟩ := h
  exact ⟨by decide, by decide, hcr, (hstep _ _ hcr).1, (hstep _ _ hcr).2⟩

/-- C6: once a session's memoized identity-string slot holds a (truthy)
string, a `createId` call neither consults the filesystem / `JSON.parse`
collaborators nor recomputes anything — its result is the same for every
pair of oracles — and on success the slot is left unchanged, so the token
hashes the memoized identity prefix. -/
theorem c6_memoization (rf rf' : String → FsRead) (pr pr' : String → Option PkgFields)
    (st : State) (opts : Options) (p : String)
    (hset : getSlot st.file ID_STRING = .strV p) (hne : p ≠ "") :
    createId rf pr st opts = createId rf' pr' st opts ∧
    (∀ (conf : Conformed) (tok : String) (st' : State),
      conformOptions opts = .ok conf → conf.counterKey ≠ ID_STRING →
      createId rf pr st opts = .ok (tok, st') →
      getSlot st'.file ID_STRING = .strV p ∧
      tok = shortHash (p ++ ":" ++ toString (counterOf st.file conf.counterKey))
        conf.idLength) := by
  have htr : truthy (getSlot st.file ID_STRING) = true := by
    rw [hset]
    simpa [truthy] using hne
  constructor
  · cases hco : conformOptions opts with
    | error e => simp [createId, hco]
    | ok conf =>
      simp only [createId, hco, createIdBody]
      rw [if_pos htr, if_pos htr]
  · intro conf tok st' hconf hck hcr
    rw [createId_conform rf pr st opts conf hconf] at hcr
    obtain ⟨h1, _, _, h4⟩ := createIdBody_ok_shape rf pr conf st tok st' hck hcr
    have hid : getSlot st'.file ID_STRING = .strV p := by rw [h4 htr, hset]
    refine ⟨hid, ?_⟩
    rw [h1, idPref, hid]
    rfl

/-- C6 witness: with a memoized identity `path:x.js`, two different oracle
pairs give identical results, and the token hashes the memoized prefix. -/
theorem c6_witness :
    getSlot stC6.file ID_STRING = .strV "path:x.js" ∧
    createId rf0 pr0 stC6 opts8 = createId rfBoom prBoom stC6 opts8 ∧
    createId rf0 pr0 stC6 opts8 = .ok ("eanyXAQv", stC6a) ∧
    getSlot stC6a.file ID_STRING = .strV "path:x.js" ∧
    "eanyXAQv" = shortHash ("path:x.js" ++ ":" ++
      toString (counterOf stC6.file ID_COUNTER)) 8 := by
  have h := c6_memoization rf0 rfBoom pr0 prBoom stC6 opts8 "path:x.js" (by decide)
    (by decide)
  have hcr : createId rf0 pr0 stC6 opts8 = .ok ("eanyXAQv", stC6a) := by decide
  have hconf : conformOptions opts8 = .ok ⟨none, false, none, none, 8, "", ID_COUNTER⟩ := by
    decide
  have h2 := h.2 ⟨none, false, none, none, 8, "", ID_COUNTER⟩ "eanyXAQv" stC6a hconf
    (by decide) hcr
  exact ⟨by decide, h.1, hcr, h2.1, h2.2⟩

/-- C7: during the ancestor walk, a missing `package.json` (`ENOENT`) at a
level yields "nothing here" and the walk moves to the parent; any other
read failure or a `JSON.parse` failure propagates as a fatal error that
aborts the walk; a descriptor without a truthy `name` also yields "nothing
here"; and reaching the filesystem root (`dirname path === path`) with
nothing found yields absent. -/
theorem c7_walk_behavior (rf : String → FsRead) (pr : String → Option PkgFields) :
    (∀ d, rf (joinPkg d) = .notFound → readPackageJson rf pr d = .ok none) ∧
    (∀ d m, rf (joinPkg d) = .ioError m → readPackageJson rf pr d = .error m) ∧
    (∀ d s, rf (joinPkg d) = .content s → pr s = none →
      readPackageJson rf pr d = .error jsonParseErrMsg) ∧
    (∀ d s flds, rf (joinPkg d) = .content s → pr s = some flds →
      truthy flds.name = false → readPackageJson rf pr d = .ok none) ∧
    (∀ path, dirname path = path → findPackageRoot rf pr path = .ok none) ∧
    (∀ path, dirname path ≠ path → readPackageJson rf pr (dirname path) = .ok none →
      findPackageRoot rf pr path = findPackageRoot rf pr (dirname path)) ∧
    (∀ path m, dirname path ≠ path → readPackageJson rf pr (dirname path) = .error m →
      findPackageRoot rf pr path = .error m) := by
  refine ⟨?_, ?_, ?_, ?_, ?_, ?_, ?_⟩
  · intro d hd
    simp [readPackageJson, hd]
  · intro d m hd
    simp [readPackageJson, hd]
  · intro d s hd hp
    simp [readPackageJson, hd, hp]
  · intro d s flds hd hp hn
    simp [readPackageJson, hd, hp, hn]
  · intro path hfix
    rw [findPackageRoot, ancestors_fix path hfix]
    rfl
  · intro path hstep hread
    rw [findPackageRoot, ancestors_step path hstep, walkList, hread, findPackageRoot]
  · intro path m hstep hread
    rw [findPackageRoot, ancestors_step path hstep, walkList, hread]

/-- C7 witness: on an empty filesystem the walk from `/a/b` continues at
`/a`; on a permission-denied filesystem the walk aborts with that error. -/
theorem c7_witness :
    dirname "/a/b" ≠ "/a/b" ∧
    readPackageJson rf0 pr0 (dirname "/a/b") = .ok none ∧
    findPackageRoot rf0 pr0 "/a/b" = findPackageRoot rf0 pr0 (dirname "/a/b") ∧
    findPackageRoot rfBoom prBoom "/a/b" = .error "EACCES: permission denied" := by
  have h := c7_walk_behavior rf0 pr0
  have h2 := c7_walk_behavior rfBoom prBoom
  refine ⟨by decide, by decide, h.2.2.2.2.2.1 "/a/b" (by decide) (by decide), ?_⟩
  exact h2.2.2.2.2.2.2 "/a/b" "EACCES: permission denied" (by decide) (by decide)

/-- C8: supplying exactly one of `packageName`/`packageVersion` (the other
`undefined`/`null`) makes `createId` fail with a fatal configuration error
and return no token. -/
theorem c8_pairing_invariant (rf : String → FsRead) (pr : String → Option PkgFields)
    (st : State) (opts : Options)
    (h : (suppliedOpt opts.packageName ∧ ¬suppliedOpt opts.packageVersion) ∨
         (¬suppliedOpt opts.packageName ∧ suppliedOpt opts.packageVersion)) :
    ∃ e, createId rf pr st opts = .error e := by
  obtain ⟨e, he⟩ := conformOptions_pairing_err opts h
  exact ⟨e, by simp [createId, he]⟩

/-- C8 witness: `packageName: "x"` with no `packageVersion` throws. -/
theorem c8_witness :
    (suppliedOpt optsC8.packageName ∧ ¬suppliedOpt optsC8.packageVersion) ∧
    isErr (createId rf0 pr0 st0 optsC8) = true := by
  have hsup : suppliedOpt optsC8.packageName ∧ ¬suppliedOpt optsC8.packageVersion := by
    constructor
    · exact ⟨by decide, by decide⟩
    · intro hcon
      exact absurd hcon.1 (by decide)
  obtain ⟨e, he⟩ := c8_pairing_invariant rf0 pr0 st0 optsC8 (Or.inl hsup)
  refine ⟨hsup, ?_⟩
  rw [he]
  rfl

/-- C9: `createId` leaves the caller's options object untouched — the
conformance pass operates on the `{...options}` copy allocated at
`h0.next`, so the object at any existing reference `r`, and in particular
each of its fields, reads the same after the call as before. -/
theorem c9_options_unchanged (rf : String → FsRead) (pr : String → Option PkgFields)
    (h0 : Heap) (r : Nat) (st : State) (hr : r < h0.next) :
    heapGet (createIdH rf pr h0 r st).1 r = heapGet h0 r ∧
    ∀ k, objGet (heapGet (createIdH rf pr h0 r st).1 r) k = objGet (heapGet h0 r) k := by
  have h := createIdH_frame rf pr h0 r st hr
  exact ⟨h, fun k => by rw [h]⟩

/-- C9 witness: a concrete one-object heap is unchanged at reference 0. -/
theorem c9_witness :
    0 < heap0.next ∧
    heapGet (createIdH rf0 pr0 heap0 0 st0).1 0 = heapGet heap0 0 ∧
    objGet (heapGet (createIdH rf0 pr0 heap0 0 st0).1 0) "idLength" =
      objGet (heapGet heap0 0) "idLength" := by
  have h := c9_options_unchanged rf0 pr0 heap0 0 st0 (by decide)
  exact ⟨by decide, h.1, h.2 "idLength"⟩

/-- C10 (counterexample): a `Symbol` `counterKey` is NOT accepted — the
`invariant` call's message template literal stringifies the symbol before
the check runs, so `conformOptions` (and hence `createId`) throws a
`TypeError` for the very value the check was written to accept. -/
theorem c10_counterexample :
    conformOptions optsC5 =
      .error "TypeError: Cannot convert a Symbol value to a string" ∧
    createId rf0 pr0 st0 optsC5 =
      .error "TypeError: Cannot convert a Symbol value to a string" := by
  exact ⟨by decide, by decide⟩

/-- C10 (amended): every supplied `counterKey` makes `createId` throw.
When the other options are valid, a non-`Symbol` value throws exactly the
message that mislabels the offending option as `options.pluginName`,
while a `Symbol` value — the only one the `isSymbol` check would accept —
instead throws exactly the `ToString` `TypeError` raised while the
eagerly-evaluated message template literal stringifies it; so no
`counterKey` value is ever accepted. -/
theorem c10_counterKey_check (rf : String → FsRead) (pr : String → Option PkgFields)
    (st : State) (opts : Options) :
    (∀ v, opts.counterKey = v → suppliedOpt v →
      ∃ e, createId rf pr st opts = .error e) ∧
    (otherOptsValid opts →
      (∀ v, nn opts.counterKey = v → v ≠ .undef → isSymbol v = false →
        createId rf pr st opts = .error (errPreOf opts ++
          "options.pluginName must be a Symbol if provided - got " ++ jsToString v)) ∧
      (∀ i, nn opts.counterKey = .symV i →
        createId rf pr st opts =
          .error "TypeError: Cannot convert a Symbol value to a string")) := by
  constructor
  · intro v hv hs
    obtain ⟨e, he⟩ := conformOptions_ck_err opts v hv hs
    exact ⟨e, by simp [createId, he]⟩
  · intro hvalid
    obtain ⟨hpl, hrp, hpn, hpv, hip, hpair, hid⟩ := hvalid
    obtain ⟨herr, hsym⟩ := conformOptions_ck_precise opts hpl hrp hpn hpv hip hpair hid
    constructor
    · intro v hv hvu hvs
      have := herr v hv hvu hvs
      simp [createId, this]
    · intro i hv
      have := hsym i hv
      simp [createId, this]

/-- C10 witness: `counterKey: "k"` with plugin name `myplug` throws the
mislabeled (and prefixed) message; `counterKey: Symbol(5)` throws the
`ToString` `TypeError`. -/
theorem c10_witness :
    createId rf0 pr0 st0 optsC10 = .error (errPreOf optsC10 ++
      "options.pluginName must be a Symbol if provided - got " ++
      jsToString (JsVal.strV "k")) ∧
    errPreOf optsC10 ++ "options.pluginName must be a Symbol if provided - got " ++
      jsToString (JsVal.strV "k") =
      "myplug: options.pluginName must be a Symbol if provided - got k" ∧
    createId rf0 pr0 st0 optsC5 =
      .error "TypeError: Cannot convert a Symbol value to a string" := by
  have h := c10_counterKey_check rf0 pr0 st0 optsC10
  have hvalid : otherOptsValid optsC10 := by
    refine ⟨by decide, by decide, by decide, by decide, Or.inl (by decide), by decide,
      Or.inl (by decide)⟩
  have hmsg := (h.2 hvalid).1 (JsVal.strV "k") (by decide) (by decide) (by decide)
  have h5 := c10_counterKey_check rf0 pr0 st0 optsC5
  have hvalid5 : otherOptsValid optsC5 := by
    refine ⟨by decide, by decide, by decide, by decide, Or.inl (by decide), by decide,
      Or.inr ⟨8, by decide, by decide⟩⟩
  have hty := (h5.2 hvalid5).2 5 (by decide)
  exact ⟨hmsg, by decide, hty⟩
